import Mathlib

/-!
Verification of the virtual-environment registry subsystem of
`agentic_core` (file `src/agentic_core/commands/venv_manager.py`).

The Python module is shallowly embedded: every filesystem-touching
function becomes a pure Lean function over an explicit filesystem state
(`FS` for the registry file and backup directory, `VenvFS` for the
environments being inspected), with failure oracles for the I/O steps
that can fail and an explicit clock for timestamps.  Python values moved
through `json.load`/`json.dump` are modelled by the `Json` type; an
uncaught Python exception is modelled by `Except.error`.
-/

set_option linter.unusedVariables false

/-- JSON values as produced by `json.load`.  Only the constructors the
registry actually uses are modelled (objects, arrays, strings); numbers
or booleans never occur in the registry schema. -/
inductive Json where
  | str (s : String)
  | arr (xs : List Json)
  | obj (kvs : List (String × Json))

namespace Json

/-- Key lookup in a JSON object (Python `d[k]` read, minus the raised
exception: callers turn `none` into the modelled exception).  On a
non-object it is `none`, standing for Python's `TypeError` on
subscripting a non-dict. -/
def getKey : Json → String → Option Json
  | .obj kvs, k => lookupKV kvs k
  | _, _ => none
where lookupKV : List (String × Json) → String → Option Json
  | [], _ => none
  | (k', v) :: rest, k => if k' == k then some v else lookupKV rest k

/-- Key assignment on a JSON object (Python `d[k] = v` on a dict):
replaces the value in place if the key is present, appends otherwise
(Python dicts preserve insertion order).  Non-objects are returned
unchanged; the embedding only applies `setKey` to objects (Python would
raise, and the call sites guard for that). -/
def setKey : Json → String → Json → Json
  | .obj kvs, k, v => .obj (setKV kvs k v)
  | j, _, _ => j
where setKV : List (String × Json) → String → Json → List (String × Json)
  | [], k, v => [(k, v)]
  | (k', v') :: rest, k, v => if k' == k then (k, v) :: rest else (k', v') :: setKV rest k v

/-- Whether the value is a JSON object (a Python dict). -/
def isObj : Json → Bool
  | .obj _ => true
  | _ => false

/-- Python `j == s` where `s` is known to be a string: true exactly when
`j` is the same string (comparing a dict or list with a string is simply
`False` in Python, not an error). -/
def eqStr (j : Json) (s : String) : Bool :=
  match j with
  | .str t => t == s
  | _ => false

end Json

/-- Content of a file on disk: either text that parses as JSON, or text
that makes `json.load` raise `JSONDecodeError`. -/
inductive FileData where
  | json (j : Json)
  | text (s : String)

/-- Python exceptions that the embedding distinguishes.
`shapeError` collapses `KeyError`/`TypeError` (missing key, wrong
structural type); which of the two is raised never matters to the
claims. -/
inductive PyExc where
  | permissionError
  | shapeError

/-- The slice of the filesystem the registry store touches:
the registry file at `REGISTRY_PATH`, a flag modelling whether reading
that file raises `PermissionError`, and the backup directory
`BACKUP_DIR` as a finite list of (filename, content) pairs.  The
temporary file `REGISTRY_PATH + ".tmp"` lives outside both the registry
path and the backup directory, so no modelled reader can observe it and
it is omitted. -/
structure FS where
  registryFile : Option FileData
  readDenied : Bool
  backupDir : List (String × FileData)

/-- Failure oracle for the fallible I/O steps of one store operation:
whether `shutil.copy2` into the backup directory succeeds, whether the
temp-file serialization succeeds, and whether `os.replace` succeeds. -/
structure Oracle where
  backupCopyOk : Bool
  tempWriteOk : Bool
  renameOk : Bool

/-- The all-success oracle. -/
def orcGood : Oracle := ⟨true, true, true⟩

/-- One reading of the wall clock, in the two formats the module uses:
`datetime.now().isoformat()` and the backup-filename stamp
`datetime.now().strftime of %Y%m%d_%H%M%S`. -/
structure Clock where
  iso : String
  stamp : String
deriving DecidableEq

/-- Boolean lexicographic order on character lists, by code point:
exactly how Python compares strings.  (Lean's own `String` order does
not reduce in the kernel, so the comparison is spelled out.) -/
def lexLe : List Char → List Char → Bool
  | [], _ => true
  | _ :: _, [] => false
  | a :: as, b :: bs =>
    if a.toNat < b.toNat then true
    else if b.toNat < a.toNat then false
    else lexLe as bs

/-- Python `a <= b` on strings. -/
def strLe (a b : String) : Bool := lexLe a.data b.data

/-- Boolean list-head test used to spell out Python's
`startswith`/`endswith` in a kernel-reducible way. -/
def pfxB : List Char → List Char → Bool
  | [], _ => true
  | _ :: _, [] => false
  | a :: as, b :: bs => a == b && pfxB as bs

/-- Python `s.startswith(p)`. -/
def strStarts (s p : String) : Bool := pfxB p.data s.data

/-- Python `s.endswith(p)`. -/
def strEnds (s p : String) : Bool := pfxB p.data.reverse s.data.reverse

/-- The filename filter of `backup_registry` and `load_registry`:
`f.startswith("venv_registry_") and f.endswith(".json")`. -/
def isBackupName (n : String) : Bool :=
  strStarts n "venv_registry_" && strEnds n ".json"

/-- Insertion of one name into a `strLe`-sorted list. -/
def insertSorted (x : String) : List String → List String
  | [] => [x]
  | y :: ys => if strLe x y then x :: y :: ys else y :: insertSorted x ys

/-- Python `sorted()` on a list of names (insertion sort; any sorting
algorithm agrees on a list of strings under a total order, up to the
order of equal elements, and equal strings are indistinguishable). -/
def sortNames : List String → List String
  | [] => []
  | x :: xs => insertSorted x (sortNames xs)

/-- Writing file `n` with content `c` into a directory listing: the
filesystem overwrites in place if the name exists, otherwise the entry
is new. -/
def upsertFile : List (String × FileData) → String → FileData → List (String × FileData)
  | [], n, c => [(n, c)]
  | (m, d) :: rest, n, c =>
    if m == n then (n, c) :: rest else (m, d) :: upsertFile rest n c

/-- The names present in a directory listing. -/
def dirNames (dir : List (String × FileData)) : List String := dir.map Prod.fst

/-- The backup filenames of `fs` that match the naming convention. -/
def matchingNames (fs : FS) : List String :=
  (dirNames fs.backupDir).filter isBackupName

/-- Model of `backup_registry()` (venv_manager.py lines 41-69).  Copies the
registry file into the backup directory under a timestamped name; on
success lists the backups matching the naming convention, sorts them,
and removes all but the last 10.  Returns `False` when the registry file
does not exist or the copy fails; every exception is caught inside the
function.  (Python sorts the `os.path.join(BACKUP_DIR, f)` paths; all
share the directory as a common leading string, so that order agrees
with sorting the bare filenames.) -/
def backup_registry (fs : FS) (copyOk : Bool) (clk : Clock) : Bool × FS :=
  match fs.registryFile with
  | none => (false, fs)
  | some content =>
    if copyOk then
      let name := "venv_registry_" ++ clk.stamp ++ ".json"
      let dir := upsertFile fs.backupDir name content
      let sorted := sortNames ((dirNames dir).filter isBackupName)
      let dir' :=
        if sorted.length > 10 then
          let toDelete := sorted.take (sorted.length - 10)
          dir.filter (fun p => !(toDelete.contains p.1))
        else dir
      (true, ⟨fs.registryFile, fs.readDenied, dir'⟩)
    else (false, fs)

/-- Result of `save_registry`: the value returned (or the uncaught
exception), the filesystem afterwards, and the in-memory registry dict
afterwards (Python mutates it in place when stamping `last_updated`). -/
structure SaveRes where
  result : Except PyExc Bool
  fs : FS
  reg : Json

/-- Model of `save_registry(registry)` (venv_manager.py lines 131-151).  Backs up
the existing file (return value ignored), stamps `last_updated`, writes
a temp file and renames it over the target, catching any exception in
the write/rename steps and returning `False` for it.  Stamping
`last_updated` on a non-dict raises `TypeError` before the guarded
block. -/
def save_registry (registry : Json) (fs : FS) (orc : Oracle) (clk : Clock) : SaveRes :=
  let fs1 := if fs.registryFile.isSome then (backup_registry fs orc.backupCopyOk clk).2 else fs
  match registry with
  | .obj kvs =>
    let registry' := (Json.obj kvs).setKey "last_updated" (.str clk.iso)
    if orc.tempWriteOk && orc.renameOk then
      ⟨.ok true, ⟨some (.json registry'), fs1.readDenied, fs1.backupDir⟩, registry'⟩
    else
      ⟨.ok false, fs1, registry'⟩
  | j => ⟨.error .shapeError, fs1, j⟩

/-- The fresh registry built by `load_registry` when the file is absent
(venv_manager.py lines 81-89). -/
def newRegistry (clk : Clock) : Json :=
  .obj [("virtual_environments", .arr []),
        ("last_updated", .str clk.iso),
        ("registry_version", .str "1.0.0"),
        ("metadata", .obj [
          ("description", .str "Registry of active Python virtual environments managed by uv"),
          ("managed_by", .str "agentic framework")])]

/-- The registry rebuilt after unrecoverable corruption
(venv_manager.py lines 118-127): same shape plus a metadata note. -/
def recreatedRegistry (clk : Clock) : Json :=
  .obj [("virtual_environments", .arr []),
        ("last_updated", .str clk.iso),
        ("registry_version", .str "1.0.0"),
        ("metadata", .obj [
          ("description", .str "Registry of active Python virtual environments managed by uv"),
          ("managed_by", .str "agentic framework"),
          ("note", .str "This registry was recreated due to corruption")])]

/-- Result of `load_registry`: the returned registry (or the uncaught
exception) and the filesystem afterwards. -/
structure LoadRes where
  result : Except PyExc Json
  fs : FS

/-- The corruption branch of `load_registry` after backup restoration
has failed or no backup exists (venv_manager.py lines 116-129). -/
def loadRecreate (fs : FS) (orc : Oracle) (clk : Clock) : LoadRes :=
  let s := save_registry (recreatedRegistry clk) fs orc clk
  ⟨.ok s.reg, s.fs⟩

/-- Reading a named file from a directory listing. -/
def lookupDir : List (String × FileData) → String → Option FileData
  | [], _ => none
  | (m, d) :: rest, n => if m == n then some d else lookupDir rest n

/-- Model of `load_registry()` (venv_manager.py lines 71-129).  Catches exactly
`FileNotFoundError` (creates and saves a fresh registry) and
`json.JSONDecodeError` (restores from the newest backup, falling back to
recreation); any other error while opening the file — modelled by
`readDenied`, e.g. `PermissionError` — propagates.  A file that parses
is returned exactly as parsed.  In the corruption branch the backup
paths are sorted descending and only the first is tried; reading or
re-saving it sits inside one `try` whose handler falls through to
recreation. -/
def load_registry (fs : FS) (orc : Oracle) (clk : Clock) : LoadRes :=
  match fs.registryFile with
  | none =>
    let s := save_registry (newRegistry clk) fs orc clk
    ⟨.ok s.reg, s.fs⟩
  | some fd =>
    if fs.readDenied then ⟨.error .permissionError, fs⟩
    else
      match fd with
      | .json j => ⟨.ok j, fs⟩
      | .text _ =>
        let sortedDesc := (sortNames (matchingNames fs)).reverse
        match sortedDesc.head? with
        | none => loadRecreate fs orc clk
        | some latest =>
          match lookupDir fs.backupDir latest with
          | some (.json j) =>
            let s := save_registry j fs orc clk
            match s.result with
            | .ok _ => ⟨.ok s.reg, s.fs⟩
            | .error _ => loadRecreate s.fs orc clk
          | _ => loadRecreate fs orc clk

/-- The slice of the filesystem the Verifier and the scanning
operations touch: directory/file existence, the outcomes of the bounded
subprocess probes (as pure functions of the path — the filesystem is
fixed during one scenario), path canonicalization, and the result of
walking the configured scan roots.
`verRun p` is `subprocess.run of p --version`: `none` models an
exception or timeout, `some rc` a completed run with returncode `rc`.
`pyVersionProbe` is the version-printing probe (`some out` iff it
completed with returncode 0); `packagesProbe` is
`pip list --format=json` parsed (`none` on nonzero return or
exception).  `canon` is `os.path.abspath(os.path.expanduser(.))`;
`walkVenvs` lists the `.venv` directories found by `os.walk` over the
scan locations, in visiting order; `parentBase c` is
`os.path.basename` of the directory containing candidate `c`. -/
structure VenvFS where
  isDir : String → Bool
  isFile : String → Bool
  verRun : String → Option Nat
  pyVersionProbe : String → Option String
  packagesProbe : String → Option (List Json)
  canon : String → String
  walkVenvs : List String
  parentBase : String → String

/-- Model of `verify_venv(venv_path)` (venv_manager.py lines 153-183).  Checks
`bin/python` and `bin/pip` exist as files, then runs
`python --version` with a 10 second timeout; `False` on a missing
binary, a raised exception (including `TimeoutExpired`), or a nonzero
returncode.  (`os.path.join(p, "bin", "python")` is written as string
concatenation; the code's `exists(..) and isfile(..)` pair is the
single `isFile` predicate.) -/
def verify_venv (env : VenvFS) (venv_path : String) : Bool :=
  let python_bin := venv_path ++ "/bin/python"
  let pip_bin := venv_path ++ "/bin/pip"
  if !(env.isFile python_bin) then false
  else if !(env.isFile pip_bin) then false
  else
    match env.verRun python_bin with
    | none => false
    | some rc => rc == 0

/-- Model of `get_python_version(venv_path)` (venv_manager.py lines 185-203):
`"unknown"` when the interpreter is absent or the probe fails. -/
def get_python_version (env : VenvFS) (venv_path : String) : String :=
  let python_path := venv_path ++ "/bin/python"
  if env.isFile python_path then
    match env.pyVersionProbe python_path with
    | some v => v
    | none => "unknown"
  else "unknown"

/-- Model of `get_installed_packages(venv_path)` (venv_manager.py lines
205-223): the parsed `pip list --format=json` output, `[]` when the
interpreter is absent or the probe fails. -/
def get_installed_packages (env : VenvFS) (venv_path : String) : List Json :=
  let python_path := venv_path ++ "/bin/python"
  if env.isFile python_path then
    match env.packagesProbe python_path with
    | some pkgs => pkgs
    | none => []
  else []

/-- Python `registry["virtual_environments"]` followed by iterating the
result as a list: `KeyError`/`TypeError` (collapsed to `shapeError`)
when the key is missing or the value is not a list. -/
def getVenvList (registry : Json) : Except PyExc (List Json) :=
  match registry.getKey "virtual_environments" with
  | some (.arr l) => .ok l
  | some _ => .error .shapeError
  | none => .error .shapeError

/-- The registration loop `for venv in registry[..]: if venv["path"] ==
venv_path: ...`: splits the list at the first record whose `"path"`
equals the string `p`, erroring where Python would raise on
`venv["path"]` (non-dict record or missing key) before a match is
found. -/
def splitAtPath : List Json → String → Except PyExc (Option (List Json × Json × List Json))
  | [], _ => .ok none
  | v :: rest, p =>
    match v.getKey "path" with
    | none => .error .shapeError
    | some pv =>
      if pv.eqStr p then .ok (some ([], v, rest))
      else
        match splitAtPath rest p with
        | .error e => .error e
        | .ok none => .ok none
        | .ok (some (pre, m, post)) => .ok (some (v :: pre, m, post))

/-- The in-place update of an already-registered record (venv_manager.py
lines 257-263 and 669-675): `project_name` always, `python_version` and
`description` only when supplied (Python tests their truthiness; the
`Option` is `none` for an absent or empty argument), then
`last_updated`. -/
def updateVenvFields (v : Json) (project_name : String)
    (python_version description : Option String) (clk : Clock) : Json :=
  let v := v.setKey "project_name" (.str project_name)
  let v := match python_version with
    | some pv => v.setKey "python_version" (.str pv)
    | none => v
  let v := match description with
    | some d => v.setKey "description" (.str d)
    | none => v
  v.setKey "last_updated" (.str clk.iso)

/-- The fresh record built when a path is first registered
(venv_manager.py lines 275-283 and 686-694). -/
def newVenvInfo (path project_name python_version : String)
    (description : Option String) (clk : Clock) : Json :=
  .obj [("path", .str path),
        ("project_name", .str project_name),
        ("python_version", .str python_version),
        ("description", .str (match description with
          | some d => d
          | none => "Virtual environment for " ++ project_name)),
        ("created_at", .str clk.iso),
        ("last_used", .str clk.iso),
        ("last_updated", .str clk.iso)]

/-- Result of an add operation: the value returned (or the uncaught
exception) and the filesystem afterwards. -/
structure AddRes where
  result : Except PyExc Bool
  fs : FS

/-- The shared insertion tail of `add_venv` and the forced branch of
`add_environment` (venv_manager.py lines 270-294 and 681-705, two
textually identical blocks): default the version from a probe, build the
record, attach the package snapshot when nonempty, append, save
(result ignored), return `True`. -/
def insertNewVenv (env : VenvFS) (registry : Json) (venvs : List Json)
    (path project_name : String) (python_version description : Option String)
    (fs : FS) (orc : Oracle) (clk : Clock) : AddRes :=
  let pyv := match python_version with
    | some pv => pv
    | none => get_python_version env path
  let venv_info := newVenvInfo path project_name pyv description clk
  let packages := get_installed_packages env path
  let venv_info := if packages.isEmpty then venv_info
    else venv_info.setKey "packages" (.arr packages)
  let registry' := registry.setKey "virtual_environments" (.arr (venvs ++ [venv_info]))
  let s := save_registry registry' fs orc clk
  ⟨.ok true, s.fs⟩

/-- Model of `add_venv(venv_path, project_name, python_version, description,
verify)` (venv_manager.py lines 225-294).  `addAnyway` is the operator's
answer to the "Add to registry anyway?" prompt shown when verification
fails; `updateYes` the answer to "Update the existing entry?" when the
path is already registered.  The result of `save_registry` is ignored by
the code in both the update and the insert branch. -/
def add_venv (env : VenvFS) (venv_path project_name : String)
    (python_version description : Option String) (verify : Bool)
    (addAnyway updateYes : Bool) (fs : FS) (orc : Oracle) (clk : Clock) : AddRes :=
  let l := load_registry fs orc clk
  match l.result with
  | .error e => ⟨.error e, l.fs⟩
  | .ok registry =>
    let fs := l.fs
    let path := env.canon venv_path
    if !(env.isDir path) then ⟨.ok false, fs⟩
    else if verify && !(verify_venv env path) && !addAnyway then ⟨.ok false, fs⟩
    else
      match getVenvList registry with
      | .error e => ⟨.error e, fs⟩
      | .ok venvs =>
        match splitAtPath venvs path with
        | .error e => ⟨.error e, fs⟩
        | .ok (some (pre, v, post)) =>
          if updateYes then
            match v with
            | .obj _ =>
              let v' := updateVenvFields v project_name python_version description clk
              let registry' := registry.setKey "virtual_environments" (.arr (pre ++ v' :: post))
              let s := save_registry registry' fs orc clk
              ⟨.ok true, s.fs⟩
            | _ => ⟨.error .shapeError, fs⟩
          else ⟨.ok false, fs⟩
        | .ok none =>
          insertNewVenv env registry venvs path project_name python_version description fs orc clk

/-- Model of `add_environment(args)` after argument parsing (venv_manager.py
lines 616-707; the flag-parsing loop in lines 626-648 is elided and the
parsed values are taken as parameters).  With `--force` the upsert runs
without any verification or prompts (lines 651-705); otherwise it
defers to `add_venv`.  The code sets `verify = False` alongside
`force = True`, and the forced branch never consults `verify`. -/
def add_environment (env : VenvFS) (venv_path project_name : String)
    (python_version description : Option String) (verify force : Bool)
    (addAnyway updateYes : Bool) (fs : FS) (orc : Oracle) (clk : Clock) : AddRes :=
  if force then
    let l := load_registry fs orc clk
    match l.result with
    | .error e => ⟨.error e, l.fs⟩
    | .ok registry =>
      let fs := l.fs
      let path := env.canon venv_path
      if !(env.isDir path) then ⟨.ok false, fs⟩
      else
        match getVenvList registry with
        | .error e => ⟨.error e, fs⟩
        | .ok venvs =>
          match splitAtPath venvs path with
          | .error e => ⟨.error e, fs⟩
          | .ok (some (pre, v, post)) =>
            match v with
            | .obj _ =>
              let v' := updateVenvFields v project_name python_version description clk
              let registry' := registry.setKey "virtual_environments" (.arr (pre ++ v' :: post))
              let s := save_registry registry' fs orc clk
              ⟨.ok true, s.fs⟩
            | _ => ⟨.error .shapeError, fs⟩
          | .ok none =>
            insertNewVenv env registry venvs path project_name python_version description fs orc clk
  else
    add_venv env venv_path project_name python_version description verify addAnyway updateYes fs orc clk

/-- The set comprehension `existing_paths = {venv["path"] for venv in
registry["virtual_environments"]}` (venv_manager.py line 518), raising
where Python would on `venv["path"]`. -/
def pathsOf : List Json → Except PyExc (List Json)
  | [] => .ok []
  | v :: rest =>
    match v.getKey "path" with
    | none => .error .shapeError
    | some p =>
      match pathsOf rest with
      | .error e => .error e
      | .ok ps => .ok (p :: ps)

/-- The confirmation-and-add loop of `repair_registry` (venv_manager.py
lines 560-569): each discovered candidate is offered to the operator
(`confirm`), and accepted ones are added via `add_venv` with
`verify=False`, the probed version, and the auto-discovered description.
The Bool returned by `add_venv` is ignored by the code. -/
def repairAdds (env : VenvFS) (confirm : String → Bool) (updateYes : Bool)
    (orc : Oracle) (clk : Clock) : List String → FS → Except PyExc FS
  | [], fs => .ok fs
  | c :: rest, fs =>
    if confirm c then
      let r := add_venv env c (env.parentBase c) (some (get_python_version env c))
        (some ("Virtual environment for " ++ env.parentBase c ++ " (auto-discovered)"))
        false false updateYes fs orc clk
      match r.result with
      | .error e => .error e
      | .ok _ => repairAdds env confirm updateYes orc clk rest r.fs
    else repairAdds env confirm updateYes orc clk rest fs

/-- Model of `repair_registry()` (venv_manager.py lines 509-575).  Loads the
registry, collects the registered paths, scans the configured roots
(`walkVenvs`), keeps the candidates that are not yet registered and that
verify, and runs the interactive add loop over them.  The discovered
count (the `len(found_venvs)` the code prints as "Found N new virtual
environments") is returned together with the final filesystem.
`verify_venv` and `get_python_version` are pure in the model, so probing
at scan time and at add time coincide. -/
def repair_registry (env : VenvFS) (confirm : String → Bool) (updateYes : Bool)
    (fs : FS) (orc : Oracle) (clk : Clock) : Except PyExc (Nat × FS) :=
  let l := load_registry fs orc clk
  match l.result with
  | .error e => .error e
  | .ok registry =>
    match getVenvList registry with
    | .error e => .error e
    | .ok venvs =>
      match pathsOf venvs with
      | .error e => .error e
      | .ok existing =>
        let found := env.walkVenvs.filter
          (fun c => !(existing.any (fun pv => pv.eqStr c)) && verify_venv env c)
        match repairAdds env confirm updateYes orc clk found l.fs with
        | .error e => .error e
        | .ok fs' => .ok (found.length, fs')

/-- The three-way Verifier classification named by the specification. -/
inductive VClass where
  | valid
  | invalid
  | missing
deriving DecidableEq

/-- Modelled from the claim's words (spec section 4.2), for comparison
with the code's `verify_venv`: `Missing` when the path does not exist
as a directory; `Invalid` when the directory exists but a binary is
absent at its conventional relative location or the version query fails;
`Valid` otherwise. -/
def verifyClaimed (env : VenvFS) (p : String) : VClass :=
  if !(env.isDir p) then .missing
  else if !(env.isFile (p ++ "/bin/python")) || !(env.isFile (p ++ "/bin/pip")) then .invalid
  else
    match env.verRun (p ++ "/bin/python") with
    | none => .invalid
    | some rc => if rc == 0 then .valid else .invalid

/-- The two-way classification that the code's Verifier actually
computes, written from the amended claim's words: true exactly when both
binaries are present and the version query completes with returncode 0;
a nonexistent path is not distinguished from an invalid one. -/
def verifyTwoWay (env : VenvFS) (p : String) : Bool :=
  env.isFile (p ++ "/bin/python") && env.isFile (p ++ "/bin/pip") &&
    (match env.verRun (p ++ "/bin/python") with
     | some rc => rc == 0
     | none => false)

/-- Modelled from the claim's words (spec section 4.1, claim C5): the
additive merge with the default registry shape — each missing top-level
key of the schema is filled with its default, present keys are left
untouched. -/
def mergeWithDefaults (clk : Clock) (j : Json) : Json :=
  let addDefault := fun (r : Json) (k : String) (v : Json) =>
    match r.getKey k with
    | some _ => r
    | none => r.setKey k v
  let r := addDefault j "virtual_environments" (.arr [])
  let r := addDefault r "last_updated" (.str clk.iso)
  let r := addDefault r "registry_version" (.str "1.0.0")
  addDefault r "metadata" (.obj [
    ("description", .str "Registry of active Python virtual environments managed by uv"),
    ("managed_by", .str "agentic framework")])

/-- Whether record `v` is a record for path `P` (its `"path"` entry is
the string `P`). -/
def hasPathP (P : String) (v : Json) : Bool :=
  match v.getKey "path" with
  | some pv => pv.eqStr P
  | none => false

/-- How many records for path `P` a registry list contains. -/
def countPathMatches (P : String) (l : List Json) : Nat :=
  (l.filter (hasPathP P)).length

/-- A well-formed store state: the registry file is readable and holds
the JSON object `r`, whose `"virtual_environments"` entry is the list
`l`. -/
def RegState (fs : FS) (r : Json) (l : List Json) : Prop :=
  fs.readDenied = false ∧ fs.registryFile = some (.json r) ∧
    r.isObj = true ∧ r.getKey "virtual_environments" = some (.arr l)

/-- Every record carries a `"path"` entry and none of them is a record
for `P`. -/
def NoRecordFor (P : String) (l : List Json) : Prop :=
  ∀ v ∈ l, ∃ pv, v.getKey "path" = some pv ∧ pv.eqStr P = false

/-- Every record carries a `"path"` entry. -/
def AllHavePath (l : List Json) : Prop :=
  ∀ v ∈ l, ∃ pv, v.getKey "path" = some pv

/-- One registration call for a fixed path, as the claims quantify over
them: either `ag venv add --force` (`forced`), or an `add_venv` call
whose "Update the existing entry?" prompt the operator answers yes
(`updateYes = true` below). -/
structure AddCall where
  project_name : String
  python_version : Option String
  description : Option String
  verify : Bool
  addAnyway : Bool
  forced : Bool
  clk : Clock
deriving DecidableEq

/-- A call goes through registration rather than being rejected at the
verification gate: forced calls skip it, and an `add_venv` call passes
when verification is off, succeeds, or the operator overrides. -/
def CallProceeds (env : VenvFS) (P : String) (c : AddCall) : Prop :=
  c.forced = true ∨ c.verify = false ∨ verify_venv env (env.canon P) = true ∨ c.addAnyway = true

/-- Driver for a sequence of registration calls against one path `P`:
each call re-loads, mutates and re-saves through the embedded code, the
next call starting from the filesystem the previous one left.  Mirrors
repeated independent CLI invocations. -/
def runAdds (env : VenvFS) (P : String) (orc : Oracle) : List AddCall → FS → FS
  | [], fs => fs
  | c :: rest, fs =>
    let r :=
      if c.forced then
        add_environment env P c.project_name c.python_version c.description false true
          c.addAnyway true fs orc c.clk
      else
        add_venv env P c.project_name c.python_version c.description c.verify
          c.addAnyway true fs orc c.clk
    runAdds env P orc rest r.fs

/-- Driver for `N` successive `save_registry` calls on one in-memory
registry dict (each save re-stamps the dict in place, as Python does):
the conjunction of the returned booleans, the final filesystem and the
final in-memory dict. -/
def saveIter : List (Oracle × Clock) → Json → FS → Bool × FS × Json
  | [], reg, fs => (true, fs, reg)
  | oc :: rest, reg, fs =>
    let s := save_registry reg fs oc.1 oc.2
    match s.result with
    | .ok b =>
      let t := saveIter rest s.reg s.fs
      (b && t.1, t.2.1, t.2.2)
    | .error _ => (false, s.fs, s.reg)

/-- The relation `strLe · · = true`, the order in which Python sorts the
backup filenames. -/
def NameLe (a b : String) : Prop := strLe a b = true

/-- Clock fixture used by the concrete counterexamples. -/
def clkA : Clock := ⟨"TIME_A", "20250101_000000"⟩

/-- Second clock fixture. -/
def clkB : Clock := ⟨"TIME_B", "20250102_000000"⟩

/-- A small well-formed registry object with one record, used as backup
content in the concrete counterexamples. -/
def regOneRec : Json :=
  .obj [("virtual_environments", .arr [.obj [("path", .str "/a"), ("project_name", .str "a")]]),
        ("last_updated", .str "TIME_0"),
        ("registry_version", .str "1.0.0"),
        ("metadata", .obj [("description", .str "d"), ("managed_by", .str "agentic framework")])]

/-- Counterexample state for claim C1: the registry file is corrupt, the
backup directory holds two backups, the newer one (`..._B`) corrupt and
the older one (`..._A`) valid. -/
def fsC1cex : FS :=
  ⟨some (.text "not json"), false,
   [("venv_registry_20250102_B.json", .text "also not json"),
    ("venv_registry_20250101_A.json", .json regOneRec)]⟩

/-- Counterexample state for claim C5: the registry file parses but its
top-level object lacks `virtual_environments`, `last_updated` and
`metadata`. -/
def fsC5cex : FS :=
  ⟨some (.json (.obj [("registry_version", .str "1.0.0")])), false, []⟩

/-- Counterexample state for claim C7: the registry file exists but
reading it raises `PermissionError`. -/
def fsC7cex : FS := ⟨some (.json regOneRec), true, []⟩

/-- Environment fixture for claim C6 in which the candidate path does
not exist at all. -/
def envMissing : VenvFS :=
  ⟨fun _ => false, fun _ => false, fun _ => none, fun _ => none, fun _ => none,
   fun s => s, [], fun _ => ""⟩

/-- Environment fixture for claim C6 in which the candidate directory
exists with a working interpreter but no `bin/pip`. -/
def envNoPip : VenvFS :=
  ⟨fun d => d == "/v", fun f => f == "/v/bin/python",
   fun p => if p == "/v/bin/python" then some 0 else none,
   fun _ => some "3.12.0", fun _ => none, fun s => s, [], fun _ => ""⟩

/-- Environment fixture with one valid environment at `/scan/proj/.venv`
discovered by the walk, used by the C9 counterexample and several
witnesses. -/
def envOne : VenvFS :=
  ⟨fun d => d == "/scan/proj/.venv",
   fun f => f == "/scan/proj/.venv/bin/python" || f == "/scan/proj/.venv/bin/pip",
   fun p => if p == "/scan/proj/.venv/bin/python" then some 0 else none,
   fun _ => some "3.12.0", fun _ => none, fun s => s, ["/scan/proj/.venv"], fun _ => "proj"⟩

/-- A readable registry file whose object has an empty record list. -/
def fsEmptyReg : FS :=
  ⟨some (.json (.obj [("virtual_environments", .arr []), ("last_updated", .str "TIME_0")])),
   false, []⟩

/-- Backup-directory fixture: `n` distinct well-formed backup filenames. -/
def mkBackups : Nat → List (String × FileData)
  | 0 => []
  | n + 1 =>
    ("venv_registry_" ++ (Nat.toDigits 10 (n + 10)).asString ++ ".json", .text "old") ::
      mkBackups n

/-- Counterexample state for claim C8: a pre-existing registry file and
eleven backups already in the backup directory. -/
def fsC8cex : FS := ⟨some (.json regOneRec), false, mkBackups 11⟩

/-- The failure oracle of the C8 counterexample: every backup copy
fails, both write steps succeed. -/
def orcNoBackup : Oracle := ⟨false, true, true⟩

/-- Ten save steps with the failing-backup oracle, for the C8
counterexample. -/
def stepsC8 : List (Oracle × Clock) :=
  List.replicate 10 (orcNoBackup, clkA)

/-- Environment fixture for the C3 witness: a valid environment at the
canonical path `/w/proj/.venv`. -/
def envW : VenvFS :=
  ⟨fun d => d == "/w/proj/.venv",
   fun f => f == "/w/proj/.venv/bin/python" || f == "/w/proj/.venv/bin/pip",
   fun p => if p == "/w/proj/.venv/bin/python" then some 0 else none,
   fun _ => some "3.11.9", fun _ => none, fun s => s, [], fun _ => "proj"⟩

/-- The record that the insertion tail appends for path `path` (the
value of `venv_info` at venv_manager.py line 290/701): the fresh record,
with the package snapshot attached when the probe returned a nonempty
list. -/
def insertedRec (env : VenvFS) (path project_name : String)
    (python_version description : Option String) (clk : Clock) : Json :=
  let pyv := match python_version with
    | some pv => pv
    | none => get_python_version env path
  let vi := newVenvInfo path project_name pyv description clk
  let packages := get_installed_packages env path
  if packages.isEmpty then vi else vi.setKey "packages" (.arr packages)

/-! ### Basic lemmas about the JSON model -/

theorem lookupKV_setKV_self (kvs : List (String × Json)) (k : String) (v : Json) :
    Json.getKey.lookupKV (Json.setKey.setKV kvs k v) k = some v := by
  induction kvs with
  | nil => simp [Json.setKey.setKV, Json.getKey.lookupKV]
  | cons p rest ih =>
    obtain ⟨k', v'⟩ := p
    by_cases h : (k' == k) = true
    · simp [Json.setKey.setKV, h, Json.getKey.lookupKV]
    · simp [Json.setKey.setKV, h, Json.getKey.lookupKV, ih]

theorem lookupKV_setKV_ne (kvs : List (String × Json)) (k k' : String) (v : Json)
    (h : k' ≠ k) :
    Json.getKey.lookupKV (Json.setKey.setKV kvs k v) k' = Json.getKey.lookupKV kvs k' := by
  induction kvs with
  | nil =>
    have : (k == k') = false := by
      simp only [beq_eq_false_iff_ne]
      exact fun hkk => h hkk.symm
    simp [Json.setKey.setKV, Json.getKey.lookupKV, this]
  | cons p rest ih =>
    obtain ⟨k1, v1⟩ := p
    by_cases h1 : (k1 == k) = true
    · have hk1 : k1 = k := by simpa using h1
      have : (k == k') = false := by
        simp only [beq_eq_false_iff_ne]
        exact fun hkk => h hkk.symm
      have : (k1 == k') = false := by
        simp only [beq_eq_false_iff_ne]
        intro hkk; exact h (by rw [← hkk, hk1])
      simp [Json.setKey.setKV, h1, Json.getKey.lookupKV, *]
    · simp [Json.setKey.setKV, h1, Json.getKey.lookupKV, ih]

theorem getKey_setKey_self (j : Json) (k : String) (v : Json) (hj : j.isObj = true) :
    (j.setKey k v).getKey k = some v := by
  cases j with
  | obj kvs => simpa [Json.setKey, Json.getKey] using lookupKV_setKV_self kvs k v
  | str s => simp [Json.isObj] at hj
  | arr xs => simp [Json.isObj] at hj

theorem getKey_setKey_ne (j : Json) (k k' : String) (v : Json) (h : k' ≠ k) :
    (j.setKey k v).getKey k' = j.getKey k' := by
  cases j with
  | obj kvs => simpa [Json.setKey, Json.getKey] using lookupKV_setKV_ne kvs k k' v h
  | str s => simp [Json.setKey]
  | arr xs => simp [Json.setKey]

theorem isObj_setKey (j : Json) (k : String) (v : Json) (hj : j.isObj = true) :
    (j.setKey k v).isObj = true := by
  cases j <;> simp_all [Json.isObj, Json.setKey]

/-! ### Store-level helper lemmas -/

theorem backup_registryFile (fs : FS) (b : Bool) (clk : Clock) :
    (backup_registry fs b clk).2.registryFile = fs.registryFile := by
  obtain ⟨rf, rd, bd⟩ := fs
  cases rf <;> cases b <;> simp [backup_registry]

theorem backup_readDenied (fs : FS) (b : Bool) (clk : Clock) :
    (backup_registry fs b clk).2.readDenied = fs.readDenied := by
  obtain ⟨rf, rd, bd⟩ := fs
  cases rf <;> cases b <;> simp [backup_registry]

theorem save_readDenied (registry : Json) (fs : FS) (orc : Oracle) (clk : Clock) :
    (save_registry registry fs orc clk).fs.readDenied = fs.readDenied := by
  unfold save_registry
  cases registry with
  | obj kvs =>
    by_cases h : fs.registryFile.isSome = true <;>
      by_cases hw : (orc.tempWriteOk && orc.renameOk) = true <;>
      simp [h, hw, backup_readDenied]
  | str s =>
    by_cases h : fs.registryFile.isSome = true <;> simp [h, backup_readDenied]
  | arr xs =>
    by_cases h : fs.registryFile.isSome = true <;> simp [h, backup_readDenied]

theorem save_obj_result (registry : Json) (fs : FS) (orc : Oracle) (clk : Clock)
    (hobj : registry.isObj = true) (hw : orc.tempWriteOk = true) (hr : orc.renameOk = true) :
    (save_registry registry fs orc clk).result = .ok true := by
  cases registry with
  | obj kvs =>
    unfold save_registry
    by_cases h : fs.registryFile.isSome = true <;> simp [h, hw, hr]
  | str s => simp [Json.isObj] at hobj
  | arr xs => simp [Json.isObj] at hobj

theorem save_obj_reg (registry : Json) (fs : FS) (orc : Oracle) (clk : Clock)
    (hobj : registry.isObj = true) :
    (save_registry registry fs orc clk).reg = registry.setKey "last_updated" (.str clk.iso) := by
  cases registry with
  | obj kvs =>
    unfold save_registry
    by_cases h : fs.registryFile.isSome = true <;>
      by_cases hw : (orc.tempWriteOk && orc.renameOk) = true <;> simp [h, hw]
  | str s => simp [Json.isObj] at hobj
  | arr xs => simp [Json.isObj] at hobj

theorem save_obj_file (registry : Json) (fs : FS) (orc : Oracle) (clk : Clock)
    (hobj : registry.isObj = true) (hw : orc.tempWriteOk = true) (hr : orc.renameOk = true) :
    (save_registry registry fs orc clk).fs.registryFile
      = some (.json (registry.setKey "last_updated" (.str clk.iso))) := by
  cases registry with
  | obj kvs =>
    unfold save_registry
    by_cases h : fs.registryFile.isSome = true <;> simp [h, hw, hr]
  | str s => simp [Json.isObj] at hobj
  | arr xs => simp [Json.isObj] at hobj

theorem load_parse (fs : FS) (r : Json) (orc : Oracle) (clk : Clock)
    (h1 : fs.readDenied = false) (h2 : fs.registryFile = some (.json r)) :
    load_registry fs orc clk = ⟨.ok r, fs⟩ := by
  unfold load_registry
  rw [h2]
  simp [h1]

theorem getVenvList_of_getKey (r : Json) (l : List Json)
    (h : r.getKey "virtual_environments" = some (.arr l)) :
    getVenvList r = .ok l := by
  unfold getVenvList
  rw [h]

/-! ### Record-field lemmas -/

theorem newVenvInfo_isObj (path pn pyv : String) (d : Option String) (clk : Clock) :
    (newVenvInfo path pn pyv d clk).isObj = true := by
  simp [newVenvInfo, Json.isObj]

theorem insertedRec_isObj (env : VenvFS) (path pn : String) (pv d : Option String)
    (clk : Clock) : (insertedRec env path pn pv d clk).isObj = true := by
  unfold insertedRec
  by_cases h : (get_installed_packages env path).isEmpty = true <;>
    simp [h, newVenvInfo_isObj, isObj_setKey]

theorem newVenvInfo_getKey (path pn pyv : String) (d : Option String) (clk : Clock) :
    (newVenvInfo path pn pyv d clk).getKey "path" = some (.str path) ∧
    (newVenvInfo path pn pyv d clk).getKey "project_name" = some (.str pn) ∧
    (newVenvInfo path pn pyv d clk).getKey "python_version" = some (.str pyv) ∧
    (newVenvInfo path pn pyv d clk).getKey "created_at" = some (.str clk.iso) ∧
    (newVenvInfo path pn pyv d clk).getKey "last_updated" = some (.str clk.iso) ∧
    (newVenvInfo path pn pyv d clk).getKey "description"
      = some (.str (match d with
          | some s => s
          | none => "Virtual environment for " ++ pn)) := by
  refine ⟨?_, ?_, ?_, ?_, ?_, ?_⟩ <;> rfl

theorem insertedRec_getKey (env : VenvFS) (path pn : String) (pv d : Option String)
    (clk : Clock) (k : String) (hk : k ≠ "packages") :
    (insertedRec env path pn pv d clk).getKey k
      = (newVenvInfo path pn
          (match pv with | some s => s | none => get_python_version env path)
          d clk).getKey k := by
  unfold insertedRec
  by_cases h : (get_installed_packages env path).isEmpty = true
  · simp [h]
  · simp [h, getKey_setKey_ne _ _ _ _ hk]

theorem updateVenvFields_isObj (v : Json) (pn : String) (pv d : Option String)
    (clk : Clock) (hv : v.isObj = true) :
    (updateVenvFields v pn pv d clk).isObj = true := by
  unfold updateVenvFields
  cases pv <;> cases d
  · exact isObj_setKey _ _ _ (isObj_setKey _ _ _ hv)
  · exact isObj_setKey _ _ _ (isObj_setKey _ _ _ (isObj_setKey _ _ _ hv))
  · exact isObj_setKey _ _ _ (isObj_setKey _ _ _ (isObj_setKey _ _ _ hv))
  · exact isObj_setKey _ _ _
      (isObj_setKey _ _ _ (isObj_setKey _ _ _ (isObj_setKey _ _ _ hv)))

theorem updateVenvFields_getKey_other (v : Json) (pn : String) (pv d : Option String)
    (clk : Clock) (k : String) (h1 : k ≠ "project_name") (h2 : k ≠ "python_version")
    (h3 : k ≠ "description") (h4 : k ≠ "last_updated") :
    (updateVenvFields v pn pv d clk).getKey k = v.getKey k := by
  unfold updateVenvFields
  cases pv <;> cases d <;>
    simp [getKey_setKey_ne _ _ _ _ h1, getKey_setKey_ne _ _ _ _ h2,
      getKey_setKey_ne _ _ _ _ h3, getKey_setKey_ne _ _ _ _ h4]

theorem updateVenvFields_getKey_last (v : Json) (pn : String) (pv d : Option String)
    (clk : Clock) (hv : v.isObj = true) :
    (updateVenvFields v pn pv d clk).getKey "last_updated" = some (.str clk.iso) := by
  unfold updateVenvFields
  cases pv <;> cases d
  · exact getKey_setKey_self _ _ _ (isObj_setKey _ _ _ hv)
  · exact getKey_setKey_self _ _ _ (isObj_setKey _ _ _ (isObj_setKey _ _ _ hv))
  · exact getKey_setKey_self _ _ _ (isObj_setKey _ _ _ (isObj_setKey _ _ _ hv))
  · exact getKey_setKey_self _ _ _
      (isObj_setKey _ _ _ (isObj_setKey _ _ _ (isObj_setKey _ _ _ hv)))

theorem updateVenvFields_getKey_project (v : Json) (pn : String) (pv d : Option String)
    (clk : Clock) (hv : v.isObj = true) :
    (updateVenvFields v pn pv d clk).getKey "project_name" = some (.str pn) := by
  unfold updateVenvFields
  cases pv <;> cases d
  · rw [getKey_setKey_ne _ _ _ _ (by decide)]
    exact getKey_setKey_self _ _ _ hv
  · rw [getKey_setKey_ne _ _ _ _ (by decide), getKey_setKey_ne _ _ _ _ (by decide)]
    exact getKey_setKey_self _ _ _ hv
  · rw [getKey_setKey_ne _ _ _ _ (by decide), getKey_setKey_ne _ _ _ _ (by decide)]
    exact getKey_setKey_self _ _ _ hv
  · rw [getKey_setKey_ne _ _ _ _ (by decide), getKey_setKey_ne _ _ _ _ (by decide),
      getKey_setKey_ne _ _ _ _ (by decide)]
    exact getKey_setKey_self _ _ _ hv

theorem updateVenvFields_getKey_pyv (v : Json) (pn : String) (s : String)
    (d : Option String) (clk : Clock) (hv : v.isObj = true) :
    (updateVenvFields v pn (some s) d clk).getKey "python_version" = some (.str s) := by
  unfold updateVenvFields
  cases d
  · rw [getKey_setKey_ne _ _ _ _ (by decide)]
    exact getKey_setKey_self _ _ _ (isObj_setKey _ _ _ hv)
  · rw [getKey_setKey_ne _ _ _ _ (by decide), getKey_setKey_ne _ _ _ _ (by decide)]
    exact getKey_setKey_self _ _ _ (isObj_setKey _ _ _ hv)

theorem updateVenvFields_getKey_desc (v : Json) (pn : String) (pv : Option String)
    (s : String) (clk : Clock) (hv : v.isObj = true) :
    (updateVenvFields v pn pv (some s) clk).getKey "description" = some (.str s) := by
  unfold updateVenvFields
  cases pv
  · rw [getKey_setKey_ne _ _ _ _ (by decide)]
    exact getKey_setKey_self _ _ _ (isObj_setKey _ _ _ hv)
  · rw [getKey_setKey_ne _ _ _ _ (by decide)]
    exact getKey_setKey_self _ _ _ (isObj_setKey _ _ _ (isObj_setKey _ _ _ hv))

/-! ### Lemmas about the registration loop -/

theorem splitAtPath_none (l : List Json) (P : String) (h : NoRecordFor P l) :
    splitAtPath l P = .ok none := by
  induction l with
  | nil => rfl
  | cons v rest ih =>
    obtain ⟨pv, hpv, hne⟩ := h v (by simp)
    have hrest : NoRecordFor P rest := fun w hw => h w (by simp [hw])
    simp [splitAtPath, hpv, hne, ih hrest]

theorem splitAtPath_found (pre : List Json) (m : Json) (post : List Json) (P : String)
    (hpre : NoRecordFor P pre) (pv : Json) (hm : m.getKey "path" = some pv)
    (hmatch : pv.eqStr P = true) :
    splitAtPath (pre ++ m :: post) P = .ok (some (pre, m, post)) := by
  induction pre with
  | nil => simp [splitAtPath, hm, hmatch]
  | cons v rest ih =>
    obtain ⟨qv, hqv, hne⟩ := hpre v (by simp)
    have hrest : NoRecordFor P rest := fun w hw => hpre w (by simp [hw])
    simp [splitAtPath, hqv, hne, ih hrest]

theorem insertNewVenv_eq (env : VenvFS) (registry : Json) (venvs : List Json)
    (path pn : String) (pv d : Option String) (fs : FS) (orc : Oracle) (clk : Clock) :
    insertNewVenv env registry venvs path pn pv d fs orc clk
      = ⟨.ok true, (save_registry (registry.setKey "virtual_environments"
          (.arr (venvs ++ [insertedRec env path pn pv d clk]))) fs orc clk).fs⟩ := by
  unfold insertNewVenv insertedRec
  by_cases h : (get_installed_packages env path).isEmpty = true <;> simp [h]

theorem saved_RegState (r' : Json) (l' : List Json) (fs : FS) (orc : Oracle) (clk : Clock)
    (hobj : r'.isObj = true) (hread : fs.readDenied = false)
    (hl : r'.getKey "virtual_environments" = some (.arr l'))
    (hw : orc.tempWriteOk = true) (hr : orc.renameOk = true) :
    RegState (save_registry r' fs orc clk).fs (r'.setKey "last_updated" (.str clk.iso)) l' := by
  refine ⟨?_, ?_, ?_, ?_⟩
  · rw [save_readDenied]; exact hread
  · exact save_obj_file r' fs orc clk hobj hw hr
  · exact isObj_setKey _ _ _ hobj
  · rw [getKey_setKey_ne _ _ _ _ (by decide)]; exact hl

theorem add_venv_insert (env : VenvFS) (P pn : String) (pv d : Option String)
    (vf aa uy : Bool) (fs : FS) (r : Json) (l : List Json) (clk : Clock)
    (hreg : RegState fs r l) (hcanon : env.canon P = P) (hdir : env.isDir P = true)
    (hnone : NoRecordFor P l)
    (hgate : vf = false ∨ verify_venv env P = true ∨ aa = true) :
    (add_venv env P pn pv d vf aa uy fs orcGood clk).result = .ok true ∧
    RegState (add_venv env P pn pv d vf aa uy fs orcGood clk).fs
      ((r.setKey "virtual_environments"
          (.arr (l ++ [insertedRec env P pn pv d clk]))).setKey "last_updated" (.str clk.iso))
      (l ++ [insertedRec env P pn pv d clk]) := by
  obtain ⟨hread, hfile, hobj, hl⟩ := hreg
  have hload := load_parse fs r orcGood clk hread hfile
  have hgate' : (vf && !(verify_venv env P) && !aa) = false := by
    rcases hgate with h | h | h <;> simp [h]
  have hsplit := splitAtPath_none l P hnone
  have hins := insertNewVenv_eq env r l P pn pv d fs orcGood clk
  have hadd : add_venv env P pn pv d vf aa uy fs orcGood clk
      = ⟨.ok true, (save_registry (r.setKey "virtual_environments"
          (.arr (l ++ [insertedRec env P pn pv d clk]))) fs orcGood clk).fs⟩ := by
    unfold add_venv
    rw [hload]
    simp [hcanon, hdir, hgate', getVenvList_of_getKey r l hl, hsplit, hins]
  rw [hadd]
  have hsave := saved_RegState
    (r.setKey "virtual_environments" (.arr (l ++ [insertedRec env P pn pv d clk])))
    (l ++ [insertedRec env P pn pv d clk]) fs orcGood clk
    (isObj_setKey _ _ _ hobj) hread
    (getKey_setKey_self _ _ _ hobj) rfl rfl
  exact ⟨rfl, hsave⟩

theorem add_venv_update (env : VenvFS) (P pn : String) (pv d : Option String)
    (vf aa : Bool) (fs : FS) (r : Json) (pre : List Json) (m : Json) (post : List Json)
    (clk : Clock) (hreg : RegState fs r (pre ++ m :: post)) (hcanon : env.canon P = P)
    (hdir : env.isDir P = true) (hpre : NoRecordFor P pre) (pvm : Json)
    (hm : m.getKey "path" = some pvm) (hmm : pvm.eqStr P = true) (hobjm : m.isObj = true)
    (hgate : vf = false ∨ verify_venv env P = true ∨ aa = true) :
    (add_venv env P pn pv d vf aa true fs orcGood clk).result = .ok true ∧
    RegState (add_venv env P pn pv d vf aa true fs orcGood clk).fs
      ((r.setKey "virtual_environments"
          (.arr (pre ++ updateVenvFields m pn pv d clk :: post))).setKey "last_updated"
          (.str clk.iso))
      (pre ++ updateVenvFields m pn pv d clk :: post) := by
  obtain ⟨hread, hfile, hobj, hl⟩ := hreg
  have hload := load_parse fs r orcGood clk hread hfile
  have hgate' : (vf && !(verify_venv env P) && !aa) = false := by
    rcases hgate with h | h | h <;> simp [h]
  have hsplit := splitAtPath_found pre m post P hpre pvm hm hmm
  cases m with
  | obj kvs =>
    have hadd : add_venv env P pn pv d vf aa true fs orcGood clk
        = ⟨.ok true, (save_registry (r.setKey "virtual_environments"
            (.arr (pre ++ updateVenvFields (.obj kvs) pn pv d clk :: post)))
            fs orcGood clk).fs⟩ := by
      unfold add_venv
      rw [hload]
      simp [hcanon, hdir, hgate', getVenvList_of_getKey r _ hl, hsplit]
    rw [hadd]
    have hsave := saved_RegState
      (r.setKey "virtual_environments"
        (.arr (pre ++ updateVenvFields (.obj kvs) pn pv d clk :: post)))
      (pre ++ updateVenvFields (.obj kvs) pn pv d clk :: post) fs orcGood clk
      (isObj_setKey _ _ _ hobj) hread
      (getKey_setKey_self _ _ _ hobj) rfl rfl
    exact ⟨rfl, hsave⟩
  | str s => simp [Json.isObj] at hobjm
  | arr xs => simp [Json.isObj] at hobjm

theorem add_environment_insert (env : VenvFS) (P pn : String) (pv d : Option String)
    (vf aa uy : Bool) (fs : FS) (r : Json) (l : List Json) (clk : Clock)
    (hreg : RegState fs r l) (hcanon : env.canon P = P) (hdir : env.isDir P = true)
    (hnone : NoRecordFor P l) :
    (add_environment env P pn pv d vf true aa uy fs orcGood clk).result = .ok true ∧
    RegState (add_environment env P pn pv d vf true aa uy fs orcGood clk).fs
      ((r.setKey "virtual_environments"
          (.arr (l ++ [insertedRec env P pn pv d clk]))).setKey "last_updated" (.str clk.iso))
      (l ++ [insertedRec env P pn pv d clk]) := by
  obtain ⟨hread, hfile, hobj, hl⟩ := hreg
  have hload := load_parse fs r orcGood clk hread hfile
  have hsplit := splitAtPath_none l P hnone
  have hins := insertNewVenv_eq env r l P pn pv d fs orcGood clk
  have hadd : add_environment env P pn pv d vf true aa uy fs orcGood clk
      = ⟨.ok true, (save_registry (r.setKey "virtual_environments"
          (.arr (l ++ [insertedRec env P pn pv d clk]))) fs orcGood clk).fs⟩ := by
    unfold add_environment
    rw [if_pos rfl, hload]
    simp [hcanon, hdir, getVenvList_of_getKey r l hl, hsplit, hins]
  rw [hadd]
  have hsave := saved_RegState
    (r.setKey "virtual_environments" (.arr (l ++ [insertedRec env P pn pv d clk])))
    (l ++ [insertedRec env P pn pv d clk]) fs orcGood clk
    (isObj_setKey _ _ _ hobj) hread
    (getKey_setKey_self _ _ _ hobj) rfl rfl
  exact ⟨rfl, hsave⟩

theorem add_environment_update (env : VenvFS) (P pn : String) (pv d : Option String)
    (vf aa uy : Bool) (fs : FS) (r : Json) (pre : List Json) (m : Json) (post : List Json)
    (clk : Clock) (hreg : RegState fs r (pre ++ m :: post)) (hcanon : env.canon P = P)
    (hdir : env.isDir P = true) (hpre : NoRecordFor P pre) (pvm : Json)
    (hm : m.getKey "path" = some pvm) (hmm : pvm.eqStr P = true) (hobjm : m.isObj = true) :
    (add_environment env P pn pv d vf true aa uy fs orcGood clk).result = .ok true ∧
    RegState (add_environment env P pn pv d vf true aa uy fs orcGood clk).fs
      ((r.setKey "virtual_environments"
          (.arr (pre ++ updateVenvFields m pn pv d clk :: post))).setKey "last_updated"
          (.str clk.iso))
      (pre ++ updateVenvFields m pn pv d clk :: post) := by
  obtain ⟨hread, hfile, hobj, hl⟩ := hreg
  have hload := load_parse fs r orcGood clk hread hfile
  have hsplit := splitAtPath_found pre m post P hpre pvm hm hmm
  cases m with
  | obj kvs =>
    have hadd : add_environment env P pn pv d vf true aa uy fs orcGood clk
        = ⟨.ok true, (save_registry (r.setKey "virtual_environments"
            (.arr (pre ++ updateVenvFields (.obj kvs) pn pv d clk :: post)))
            fs orcGood clk).fs⟩ := by
      unfold add_environment
      rw [if_pos rfl, hload]
      simp [hcanon, hdir, getVenvList_of_getKey r _ hl, hsplit]
    rw [hadd]
    have hsave := saved_RegState
      (r.setKey "virtual_environments"
        (.arr (pre ++ updateVenvFields (.obj kvs) pn pv d clk :: post)))
      (pre ++ updateVenvFields (.obj kvs) pn pv d clk :: post) fs orcGood clk
      (isObj_setKey _ _ _ hobj) hread
      (getKey_setKey_self _ _ _ hobj) rfl rfl
    exact ⟨rfl, hsave⟩
  | str s => simp [Json.isObj] at hobjm
  | arr xs => simp [Json.isObj] at hobjm

theorem eqStr_self (P : String) : Json.eqStr (.str P) P = true := by
  simp [Json.eqStr]

theorem insertedRec_fields (env : VenvFS) (path pn : String) (pv d : Option String)
    (clk : Clock) :
    (insertedRec env path pn pv d clk).getKey "path" = some (.str path) ∧
    (insertedRec env path pn pv d clk).getKey "project_name" = some (.str pn) ∧
    (insertedRec env path pn pv d clk).getKey "created_at" = some (.str clk.iso) ∧
    (insertedRec env path pn pv d clk).getKey "last_updated" = some (.str clk.iso) ∧
    (∀ s, pv = some s →
      (insertedRec env path pn pv d clk).getKey "python_version" = some (.str s)) ∧
    (∀ s, d = some s →
      (insertedRec env path pn pv d clk).getKey "description" = some (.str s)) := by
  have h := newVenvInfo_getKey path pn
    (match pv with | some s => s | none => get_python_version env path) d clk
  refine ⟨?_, ?_, ?_, ?_, ?_, ?_⟩
  · rw [insertedRec_getKey _ _ _ _ _ _ _ (by decide)]; exact h.1
  · rw [insertedRec_getKey _ _ _ _ _ _ _ (by decide)]; exact h.2.1
  · rw [insertedRec_getKey _ _ _ _ _ _ _ (by decide)]; exact h.2.2.2.1
  · rw [insertedRec_getKey _ _ _ _ _ _ _ (by decide)]; exact h.2.2.2.2.1
  · intro s hs
    subst hs
    rw [insertedRec_getKey _ _ _ _ _ _ _ (by decide)]
    exact (newVenvInfo_getKey path pn s d clk).2.2.1
  · intro s hs
    subst hs
    rw [insertedRec_getKey _ _ _ _ _ _ _ (by decide)]
    exact (newVenvInfo_getKey path pn _ (some s) clk).2.2.2.2.2

theorem countPathMatches_singleton (P : String) (l₀ : List Json) (rec : Json)
    (hnr : NoRecordFor P l₀) (hrec : hasPathP P rec = true) :
    countPathMatches P (l₀ ++ [rec]) = 1 := by
  unfold countPathMatches
  rw [List.filter_append]
  have h0 : l₀.filter (hasPathP P) = [] := by
    rw [List.filter_eq_nil_iff]
    intro v hv
    obtain ⟨pv, hpv, hne⟩ := hnr v hv
    simp [hasPathP, hpv, hne]
  simp [h0, hrec]

theorem runAdds_updates (env : VenvFS) (P : String) (l₀ : List Json)
    (hnr : NoRecordFor P l₀) (hcanon : env.canon P = P) (hdir : env.isDir P = true) :
    ∀ (calls : List AddCall) (fs : FS) (r rec : Json),
      RegState fs r (l₀ ++ [rec]) → rec.isObj = true →
      rec.getKey "path" = some (.str P) →
      (∀ c ∈ calls, CallProceeds env P c) →
      ∃ r' rec', RegState (runAdds env P orcGood calls fs) r' (l₀ ++ [rec']) ∧
        rec'.isObj = true ∧ rec'.getKey "path" = some (.str P) ∧
        rec'.getKey "created_at" = rec.getKey "created_at" ∧
        ((calls = [] ∧ rec' = rec) ∨
         (∃ cl, calls.getLast? = some cl ∧
           rec'.getKey "last_updated" = some (.str cl.clk.iso) ∧
           rec'.getKey "project_name" = some (.str cl.project_name) ∧
           (∀ s, cl.python_version = some s →
             rec'.getKey "python_version" = some (.str s)) ∧
           (∀ s, cl.description = some s →
             rec'.getKey "description" = some (.str s)))) := by
  intro calls
  induction calls with
  | nil =>
    intro fs r rec hreg hobj hpath hgo
    exact ⟨r, rec, hreg, hobj, hpath, rfl, .inl ⟨rfl, rfl⟩⟩
  | cons c rest ih =>
    intro fs r rec hreg hobj hpath hgo
    have hstep :
        ∃ (r₁ : Json) (fs₁ : FS), (if c.forced then
            add_environment env P c.project_name c.python_version c.description false true
              c.addAnyway true fs orcGood c.clk
          else
            add_venv env P c.project_name c.python_version c.description c.verify
              c.addAnyway true fs orcGood c.clk).fs = fs₁ ∧
          RegState fs₁ r₁
            (l₀ ++ [updateVenvFields rec c.project_name c.python_version c.description c.clk]) := by
      cases hc : c.forced with
      | true =>
        have h := add_environment_update env P c.project_name c.python_version c.description
          false c.addAnyway true fs r l₀ rec [] c.clk hreg hcanon hdir hnr
          (.str P) hpath (eqStr_self P) hobj
        refine ⟨_, _, ?_, h.2⟩
        simp [hc]
      | false =>
        have hgate : c.verify = false ∨ verify_venv env P = true ∨ c.addAnyway = true := by
          have := hgo c (by simp)
          unfold CallProceeds at this
          rcases this with h | h | h | h
          · rw [hc] at h; exact absurd h (by simp)
          · exact .inl h
          · rw [hcanon] at h; exact .inr (.inl h)
          · exact .inr (.inr h)
        have h := add_venv_update env P c.project_name c.python_version c.description
          c.verify c.addAnyway fs r l₀ rec [] c.clk hreg hcanon hdir hnr
          (.str P) hpath (eqStr_self P) hobj hgate
        refine ⟨_, _, ?_, h.2⟩
        simp [hc]
    obtain ⟨r₁, fs₁, hfs₁, hreg₁⟩ := hstep
    have hrun : runAdds env P orcGood (c :: rest) fs = runAdds env P orcGood rest fs₁ := by
      simp only [runAdds]
      rw [hfs₁]
    rw [hrun]
    set rec₁ := updateVenvFields rec c.project_name c.python_version c.description c.clk with hrec₁
    have hobj₁ : rec₁.isObj = true := updateVenvFields_isObj _ _ _ _ _ hobj
    have hpath₁ : rec₁.getKey "path" = some (.str P) := by
      rw [hrec₁, updateVenvFields_getKey_other _ _ _ _ _ _
        (by decide) (by decide) (by decide) (by decide)]
      exact hpath
    obtain ⟨r', rec', hreg', hobj', hpath', hcreated', hlast'⟩ :=
      ih fs₁ r₁ rec₁ hreg₁ hobj₁ hpath₁ (fun x hx => hgo x (by simp [hx]))
    refine ⟨r', rec', hreg', hobj', hpath', ?_, ?_⟩
    · rw [hcreated', hrec₁, updateVenvFields_getKey_other _ _ _ _ _ _
        (by decide) (by decide) (by decide) (by decide)]
    · rcases hlast' with ⟨hrest, hrec'⟩ | ⟨cl, hcl, h1, h2, h3, h4⟩
      · subst hrest
        refine .inr ⟨c, rfl, ?_, ?_, ?_, ?_⟩
        · rw [hrec', hrec₁]; exact updateVenvFields_getKey_last _ _ _ _ _ hobj
        · rw [hrec', hrec₁]; exact updateVenvFields_getKey_project _ _ _ _ _ hobj
        · intro s hs
          rw [hrec', hrec₁, hs]
          exact updateVenvFields_getKey_pyv _ _ _ _ _ hobj
        · intro s hs
          rw [hrec', hrec₁, hs]
          exact updateVenvFields_getKey_desc _ _ _ _ _ hobj
      · refine .inr ⟨cl, ?_, h1, h2, h3, h4⟩
        cases rest with
        | nil => simp at hcl
        | cons x xs => simpa using hcl

/-! ### The claims -/

/-- Claim C3: for every canonical path and every nonempty sequence of
registration calls against it (each update confirmed or forced, each
call passing the verification gate), exactly one record for that path
exists afterwards: the first call inserts it and every later call
updates it in place — preserving `created_at`, overwriting the supplied
fields, and refreshing `last_updated` — rather than appending a
duplicate. -/
theorem C3_add_is_upsert (env : VenvFS) (P : String) (fs : FS) (r : Json)
    (l₀ : List Json) (c0 : AddCall) (rest : List AddCall)
    (hreg : RegState fs r l₀) (hnr : NoRecordFor P l₀)
    (hcanon : env.canon P = P) (hdir : env.isDir P = true)
    (hgo : ∀ c ∈ c0 :: rest, CallProceeds env P c) :
    ∃ r' rec, RegState (runAdds env P orcGood (c0 :: rest) fs) r' (l₀ ++ [rec]) ∧
      countPathMatches P (l₀ ++ [rec]) = 1 ∧
      rec.getKey "path" = some (.str P) ∧
      rec.getKey "created_at" = some (.str c0.clk.iso) ∧
      (∃ cl, (c0 :: rest).getLast? = some cl ∧
        rec.getKey "last_updated" = some (.str cl.clk.iso) ∧
        rec.getKey "project_name" = some (.str cl.project_name) ∧
        (∀ s, cl.python_version = some s →
          rec.getKey "python_version" = some (.str s)) ∧
        (∀ s, cl.description = some s →
          rec.getKey "description" = some (.str s))) := by
  have hfieldsAll := insertedRec_fields env P c0.project_name c0.python_version
    c0.description c0.clk
  set rec₀ := insertedRec env P c0.project_name c0.python_version c0.description c0.clk
    with hrec₀
  have hstep :
      ∃ (r₁ : Json) (fs₁ : FS), (if c0.forced then
          add_environment env P c0.project_name c0.python_version c0.description false true
            c0.addAnyway true fs orcGood c0.clk
        else
          add_venv env P c0.project_name c0.python_version c0.description c0.verify
            c0.addAnyway true fs orcGood c0.clk).fs = fs₁ ∧
        RegState fs₁ r₁ (l₀ ++ [rec₀]) := by
    cases hc : c0.forced with
    | true =>
      have h := add_environment_insert env P c0.project_name c0.python_version c0.description
        false c0.addAnyway true fs r l₀ c0.clk hreg hcanon hdir hnr
      refine ⟨_, _, ?_, h.2⟩
      simp [hc]
    | false =>
      have hgate : c0.verify = false ∨ verify_venv env P = true ∨ c0.addAnyway = true := by
        have := hgo c0 (by simp)
        unfold CallProceeds at this
        rcases this with h | h | h | h
        · rw [hc] at h; exact absurd h (by simp)
        · exact .inl h
        · rw [hcanon] at h; exact .inr (.inl h)
        · exact .inr (.inr h)
      have h := add_venv_insert env P c0.project_name c0.python_version c0.description
        c0.verify c0.addAnyway true fs r l₀ c0.clk hreg hcanon hdir hnr hgate
      refine ⟨_, _, ?_, h.2⟩
      simp [hc]
  obtain ⟨r₁, fs₁, hfs₁, hreg₁⟩ := hstep
  have hrun : runAdds env P orcGood (c0 :: rest) fs = runAdds env P orcGood rest fs₁ := by
    simp only [runAdds]
    rw [hfs₁]
  rw [hrun]
  obtain ⟨hP0, hpn0, hcr0, hlu0, hpv0, hd0⟩ := hfieldsAll
  obtain ⟨r', rec', hreg', hobj', hpath', hcreated', hlast'⟩ :=
    runAdds_updates env P l₀ hnr hcanon hdir rest fs₁ r₁ rec₀ hreg₁
      (insertedRec_isObj env P c0.project_name c0.python_version c0.description c0.clk)
      hP0 (fun x hx => hgo x (by simp [hx]))
  have hcount : countPathMatches P (l₀ ++ [rec']) = 1 := by
    apply countPathMatches_singleton P l₀ rec' hnr
    unfold hasPathP
    rw [hpath']
    exact eqStr_self P
  refine ⟨r', rec', hreg', hcount, hpath', ?_, ?_⟩
  · rw [hcreated', hcr0]
  · rcases hlast' with ⟨hrest, hrec'⟩ | ⟨cl, hcl, h1, h2, h3, h4⟩
    · subst hrest
      refine ⟨c0, rfl, ?_, ?_, ?_, ?_⟩
      · rw [hrec']; exact hlu0
      · rw [hrec']; exact hpn0
      · intro s hs; rw [hrec']; exact hpv0 s hs
      · intro s hs; rw [hrec']; exact hd0 s hs
    · refine ⟨cl, ?_, h1, h2, h3, h4⟩
      cases rest with
      | nil => simp at hcl
      | cons x xs => simpa using hcl

/-- Witness for C3: a concrete two-call sequence against an initially
empty registry — one verified `add_venv`, then one forced
`add_environment` update. -/
theorem C3_add_is_upsert_witness :
    ∃ r' rec,
      RegState (runAdds envW "/w/proj/.venv" orcGood
          [⟨"proj", none, none, true, false, false, clkA⟩,
           ⟨"proj2", some "3.12.1", some "d2", true, false, true, clkB⟩] fsEmptyReg)
        r' ([] ++ [rec]) ∧
      countPathMatches "/w/proj/.venv" ([] ++ [rec]) = 1 ∧
      rec.getKey "path" = some (.str "/w/proj/.venv") ∧
      rec.getKey "created_at" = some (.str clkA.iso) ∧
      (∃ cl, ((⟨"proj", none, none, true, false, false, clkA⟩ : AddCall) ::
           [⟨"proj2", some "3.12.1", some "d2", true, false, true, clkB⟩]).getLast? = some cl ∧
        rec.getKey "last_updated" = some (.str cl.clk.iso) ∧
        rec.getKey "project_name" = some (.str cl.project_name) ∧
        (∀ s, cl.python_version = some s →
          rec.getKey "python_version" = some (.str s)) ∧
        (∀ s, cl.description = some s →
          rec.getKey "description" = some (.str s))) :=
  C3_add_is_upsert envW "/w/proj/.venv" fsEmptyReg
    (.obj [("virtual_environments", .arr []), ("last_updated", .str "TIME_0")]) []
    ⟨"proj", none, none, true, false, false, clkA⟩
    [⟨"proj2", some "3.12.1", some "d2", true, false, true, clkB⟩]
    ⟨rfl, rfl, rfl, rfl⟩ (fun v hv => nomatch hv) rfl rfl
    (by
      intro c hc
      simp only [List.mem_cons, List.not_mem_nil, or_false] at hc
      rcases hc with rfl | rfl
      · exact .inr (.inr (.inl rfl))
      · exact .inl rfl)

/-- Claim C2: if `save_registry` encounters an I/O failure while
serializing to the temporary file or while renaming it over the target,
the pre-existing registry file's content is left byte-for-byte unchanged
and save reports failure (returns `False`) rather than raising. -/
theorem C2_failed_save_leaves_file (registry : Json) (fs : FS) (orc : Oracle) (clk : Clock)
    (c : FileData) (hfile : fs.registryFile = some c) (hobj : registry.isObj = true)
    (hfail : orc.tempWriteOk = false ∨ orc.renameOk = false) :
    (save_registry registry fs orc clk).result = .ok false ∧
    (save_registry registry fs orc clk).fs.registryFile = some c := by
  cases registry with
  | obj kvs =>
    unfold save_registry
    have hW : (orc.tempWriteOk && orc.renameOk) = false := by
      rcases hfail with h | h <;> simp [h]
    have hs : fs.registryFile.isSome = true := by rw [hfile]; rfl
    simp [hs, hW, backup_registryFile, hfile]
  | str s => simp [Json.isObj] at hobj
  | arr xs => simp [Json.isObj] at hobj

/-- Witness for C2: a concrete registry object and filesystem, with the
temp-file write failing. -/
theorem C2_failed_save_leaves_file_witness :
    (save_registry regOneRec fsEmptyReg ⟨true, false, true⟩ clkA).result = .ok false ∧
    (save_registry regOneRec fsEmptyReg ⟨true, false, true⟩ clkA).fs.registryFile
      = some (.json (.obj [("virtual_environments", .arr []),
          ("last_updated", .str "TIME_0")])) :=
  C2_failed_save_leaves_file regOneRec fsEmptyReg ⟨true, false, true⟩ clkA
    (.json (.obj [("virtual_environments", .arr []), ("last_updated", .str "TIME_0")]))
    rfl rfl (.inl rfl)

/-- Claim C4: saving a registry and loading the file back yields exactly
the saved registry, equal to the original in every field except the
top-level `last_updated`, which save re-stamps to the current time. -/
theorem C4_round_trip (registry : Json) (fs : FS) (orc : Oracle) (clk clk₂ : Clock)
    (hobj : registry.isObj = true) (hread : fs.readDenied = false)
    (hw : orc.tempWriteOk = true) (hr : orc.renameOk = true) :
    (load_registry (save_registry registry fs orc clk).fs orc clk₂).result
      = .ok (registry.setKey "last_updated" (.str clk.iso)) ∧
    (∀ k, k ≠ "last_updated" →
      (registry.setKey "last_updated" (.str clk.iso)).getKey k = registry.getKey k) ∧
    (registry.setKey "last_updated" (.str clk.iso)).getKey "last_updated"
      = some (.str clk.iso) := by
  have hrd : (save_registry registry fs orc clk).fs.readDenied = false := by
    rw [save_readDenied]; exact hread
  have hfile := save_obj_file registry fs orc clk hobj hw hr
  refine ⟨?_, ?_, ?_⟩
  · rw [load_parse _ _ orc clk₂ hrd hfile]
  · intro k hk
    exact getKey_setKey_ne _ _ _ _ hk
  · exact getKey_setKey_self _ _ _ hobj

/-- Witness for C4: round trip of a concrete one-record registry. -/
theorem C4_round_trip_witness :
    (load_registry (save_registry regOneRec fsEmptyReg orcGood clkA).fs orcGood clkB).result
      = .ok (regOneRec.setKey "last_updated" (.str clkA.iso)) ∧
    (∀ k, k ≠ "last_updated" →
      (regOneRec.setKey "last_updated" (.str clkA.iso)).getKey k = regOneRec.getKey k) ∧
    (regOneRec.setKey "last_updated" (.str clkA.iso)).getKey "last_updated"
      = some (.str clkA.iso) :=
  C4_round_trip regOneRec fsEmptyReg orcGood clkA clkB rfl rfl rfl rfl

/-- Counterexample for claim C5 as stated: a registry file that parses
but lacks the `virtual_environments` key.  The claim says `load()`
returns the content additively merged with the default shape (so the
returned registry would carry `virtual_environments` defaulted to `[]`);
the code returns the parsed content with the key still missing. -/
theorem C5_counterexample :
    (load_registry fsC5cex orcGood clkA).result
      = .ok (.obj [("registry_version", .str "1.0.0")]) ∧
    (Json.obj [("registry_version", .str "1.0.0")]).getKey "virtual_environments" = none ∧
    (mergeWithDefaults clkA (.obj [("registry_version", .str "1.0.0")])).getKey
      "virtual_environments" = some (.arr []) :=
  ⟨rfl, rfl, rfl⟩

/-- Claim C5 amended: for every registry file that exists, is readable
and parses as JSON, `load()` returns the parsed content exactly as-is —
no key is added, altered or removed, and the filesystem is untouched;
in particular missing top-level schema keys stay missing (the additive
merge the spec describes is not performed). -/
theorem C5_load_as_is (fs : FS) (j : Json) (orc : Oracle) (clk : Clock)
    (hread : fs.readDenied = false) (hfile : fs.registryFile = some (.json j)) :
    load_registry fs orc clk = ⟨.ok j, fs⟩ :=
  load_parse fs j orc clk hread hfile

/-- Witness for the amended C5 at the key-missing concrete file. -/
theorem C5_load_as_is_witness :
    load_registry fsC5cex orcGood clkA
      = ⟨.ok (.obj [("registry_version", .str "1.0.0")]), fsC5cex⟩ :=
  C5_load_as_is fsC5cex (.obj [("registry_version", .str "1.0.0")]) orcGood clkA rfl rfl

/-- Counterexample for claim C7 as stated: with the registry file
present but unreadable (`PermissionError`), `load()` propagates the
exception instead of returning a Registry. -/
theorem C7_counterexample :
    (load_registry fsC7cex orcGood clkA).result = .error .permissionError := rfl

/-- Claim C7 amended: `load()` catches exactly `FileNotFoundError` and
JSON parse errors — under those it always produces a Registry — but
other errors while opening the file (e.g. `PermissionError`) propagate;
`save()` on a registry object always returns an explicit
success-or-failure boolean. -/
theorem C7_no_raise_when_readable (fs : FS) (orc : Oracle) (clk : Clock) :
    (fs.readDenied = false → ∃ j, (load_registry fs orc clk).result = .ok j) ∧
    (∀ registry : Json, registry.isObj = true →
      ∃ b, (save_registry registry fs orc clk).result = .ok b) := by
  constructor
  · intro h
    unfold load_registry
    cases hfs : fs.registryFile with
    | none => exact ⟨_, rfl⟩
    | some fd =>
      cases fd with
      | json j => simp [h]
      | text s =>
        rw [h]
        simp only [Bool.false_eq_true, if_false]
        cases hh : (sortNames (matchingNames fs)).reverse.head? with
        | none => exact ⟨_, rfl⟩
        | some latest =>
          dsimp only
          cases hl : lookupDir fs.backupDir latest with
          | none => exact ⟨_, rfl⟩
          | some bd =>
            cases bd with
            | json jb =>
              dsimp only
              cases hs : (save_registry jb fs orc clk).result with
              | ok b => exact ⟨_, rfl⟩
              | error e => exact ⟨_, rfl⟩
            | text s2 => exact ⟨_, rfl⟩
  · intro registry hobj
    cases registry with
    | obj kvs =>
      unfold save_registry
      by_cases hw : (orc.tempWriteOk && orc.renameOk) = true <;>
        by_cases hs : fs.registryFile.isSome = true <;>
        simp [hw, hs]
    | str s => simp [Json.isObj] at hobj
    | arr xs => simp [Json.isObj] at hobj

/-- Witness for the amended C7 at a concrete readable state. -/
theorem C7_no_raise_when_readable_witness :
    (∃ j, (load_registry fsEmptyReg orcGood clkA).result = .ok j) ∧
    (∃ b, (save_registry regOneRec fsEmptyReg orcGood clkA).result = .ok b) :=
  ⟨(C7_no_raise_when_readable fsEmptyReg orcGood clkA).1 rfl,
   (C7_no_raise_when_readable fsEmptyReg orcGood clkA).2 regOneRec rfl⟩

/-- Claim C10 (implicit): the backup step's outcome never affects the
outcome of `save()` — result, written registry file and in-memory
registry are identical whether the backup copy succeeds or fails — and
when no registry file exists at save time no backup is taken at all
(the backup directory is untouched). -/
theorem C10_backup_never_blocks_save (registry : Json) (fs : FS) (clk : Clock)
    (b₁ b₂ w rn : Bool) :
    (save_registry registry fs ⟨b₁, w, rn⟩ clk).result
      = (save_registry registry fs ⟨b₂, w, rn⟩ clk).result ∧
    (save_registry registry fs ⟨b₁, w, rn⟩ clk).fs.registryFile
      = (save_registry registry fs ⟨b₂, w, rn⟩ clk).fs.registryFile ∧
    (save_registry registry fs ⟨b₁, w, rn⟩ clk).reg
      = (save_registry registry fs ⟨b₂, w, rn⟩ clk).reg ∧
    (fs.registryFile = none →
      (save_registry registry fs ⟨b₁, w, rn⟩ clk).fs.backupDir = fs.backupDir) := by
  cases hfs : fs.registryFile with
  | none =>
    unfold save_registry
    cases registry <;> by_cases hw : (w && rn) = true <;> simp [hfs, hw]
  | some c =>
    unfold save_registry
    cases registry <;> by_cases hw : (w && rn) = true <;>
      simp [hfs, hw, backup_registryFile]

/-- Witness for C10 at a concrete no-registry-file state. -/
theorem C10_backup_never_blocks_save_witness :
    ((save_registry regOneRec ⟨none, false, []⟩ ⟨false, true, true⟩ clkA).result
      = (save_registry regOneRec ⟨none, false, []⟩ ⟨true, true, true⟩ clkA).result) ∧
    ((save_registry regOneRec ⟨none, false, []⟩ ⟨false, true, true⟩ clkA).fs.backupDir
      = ([] : List (String × FileData))) :=
  ⟨(C10_backup_never_blocks_save regOneRec ⟨none, false, []⟩ clkA false true true true).1,
   (C10_backup_never_blocks_save regOneRec ⟨none, false, []⟩ clkA false true true true).2.2.2
     rfl⟩

/-- Counterexample for claim C1 as stated: the registry file is corrupt
and at least one backup parses (the older one holds `regOneRec`), yet
`load()` does not return that backup's registry — only the most recent
backup is ever tried, it fails to parse, and the registry is recreated
empty.  The conjuncts exhibit the state (the older backup parses with a
nonempty record list) and the outcome (an empty recreated registry). -/
theorem C1_counterexample :
    (load_registry fsC1cex orcGood clkA).result = .ok (recreatedRegistry clkA) ∧
    (recreatedRegistry clkA).getKey "virtual_environments" = some (.arr []) ∧
    lookupDir fsC1cex.backupDir "venv_registry_20250101_A.json" = some (.json regOneRec) ∧
    regOneRec.getKey "virtual_environments"
      = some (.arr [.obj [("path", .str "/a"), ("project_name", .str "a")]]) :=
  ⟨rfl, rfl, rfl, rfl⟩

/-- Claim C1 amended: when the registry file fails to parse and the
most recent backup (by sorted timestamped filename) parses as a registry
object, `load()` returns that backup's registry — with its top-level
`last_updated` re-stamped by the save — persists it as the current
registry file, and a subsequent `load()` reads it directly without
recovery.  Backups older than the most recent one are never consulted. -/
theorem C1_recovery_from_latest (fs : FS) (clk : Clock) (s latest : String) (j : Json)
    (hcorrupt : fs.registryFile = some (.text s))
    (hread : fs.readDenied = false)
    (hlatest : (sortNames (matchingNames fs)).reverse.head? = some latest)
    (hcontent : lookupDir fs.backupDir latest = some (.json j))
    (hobj : j.isObj = true) :
    (load_registry fs orcGood clk).result = .ok (j.setKey "last_updated" (.str clk.iso)) ∧
    (load_registry fs orcGood clk).fs.registryFile
      = some (.json (j.setKey "last_updated" (.str clk.iso))) ∧
    (∀ clk', load_registry (load_registry fs orcGood clk).fs orcGood clk'
      = ⟨.ok (j.setKey "last_updated" (.str clk.iso)), (load_registry fs orcGood clk).fs⟩) := by
  have hreg := save_obj_reg j fs orcGood clk hobj
  have hfile := save_obj_file j fs orcGood clk hobj rfl rfl
  have hload : load_registry fs orcGood clk
      = ⟨.ok (save_registry j fs orcGood clk).reg, (save_registry j fs orcGood clk).fs⟩ := by
    unfold load_registry
    rw [hcorrupt]
    simp [hread, hlatest, hcontent, save_obj_result j fs orcGood clk hobj rfl rfl]
  have hrd : (save_registry j fs orcGood clk).fs.readDenied = false := by
    rw [save_readDenied]; exact hread
  rw [hload]
  refine ⟨by rw [hreg], by rw [hfile], ?_⟩
  intro clk'
  have h2 := load_parse (save_registry j fs orcGood clk).fs
    (j.setKey "last_updated" (.str clk.iso)) orcGood clk' hrd hfile
  exact h2

/-- Witness for the amended C1: a corrupt registry file with a single
valid backup. -/
theorem C1_recovery_from_latest_witness :
    (load_registry ⟨some (.text "bad"), false,
        [("venv_registry_20250103_C.json", .json regOneRec)]⟩ orcGood clkA).result
      = .ok (regOneRec.setKey "last_updated" (.str clkA.iso)) ∧
    (load_registry ⟨some (.text "bad"), false,
        [("venv_registry_20250103_C.json", .json regOneRec)]⟩ orcGood clkA).fs.registryFile
      = some (.json (regOneRec.setKey "last_updated" (.str clkA.iso))) ∧
    (∀ clk', load_registry (load_registry ⟨some (.text "bad"), false,
        [("venv_registry_20250103_C.json", .json regOneRec)]⟩ orcGood clkA).fs orcGood clk'
      = ⟨.ok (regOneRec.setKey "last_updated" (.str clkA.iso)),
         (load_registry ⟨some (.text "bad"), false,
           [("venv_registry_20250103_C.json", .json regOneRec)]⟩ orcGood clkA).fs⟩) :=
  C1_recovery_from_latest ⟨some (.text "bad"), false,
      [("venv_registry_20250103_C.json", .json regOneRec)]⟩ clkA "bad"
    "venv_registry_20250103_C.json" regOneRec rfl rfl rfl rfl rfl

/-- Counterexample for claim C6 as stated: `verify_venv` returns a
boolean, and no reading of that boolean realizes the claimed three-way
classification — a path that does not exist at all and an existing
directory that merely lacks `bin/pip` produce the same return value,
while the claim assigns them the distinct classes Missing and
Invalid. -/
theorem C6_counterexample :
    ¬ ∃ f : Bool → VClass, ∀ (env : VenvFS) (p : String),
        f (verify_venv env p) = verifyClaimed env p := by
  rintro ⟨f, hf⟩
  have h1 := hf envMissing "/v"
  have h2 := hf envNoPip "/v"
  have e1 : verify_venv envMissing "/v" = false := rfl
  have e2 : verify_venv envNoPip "/v" = false := rfl
  have c1 : verifyClaimed envMissing "/v" = .missing := rfl
  have c2 : verifyClaimed envNoPip "/v" = .invalid := rfl
  rw [e1, c1] at h1
  rw [e2, c2] at h2
  rw [h1] at h2
  exact absurd h2 (by decide)

/-- Claim C6 amended: `verify_venv` is a total two-way classifier — it
returns `True` exactly when both binaries are present and the version
query completes with returncode 0, and `False` otherwise (including for
a path that does not exist at all, which it does not distinguish from an
invalid environment; the Missing case is discriminated by callers, not
by verify).  Subprocess failures collapse to `False`, never an
exception. -/
theorem C6_verify_two_way (env : VenvFS) (p : String) :
    verify_venv env p = verifyTwoWay env p := by
  unfold verify_venv verifyTwoWay
  cases h1 : env.isFile (p ++ "/bin/python") <;>
    cases h2 : env.isFile (p ++ "/bin/pip") <;>
    cases h3 : env.verRun (p ++ "/bin/python") <;>
    simp [h1, h2, h3]

/-- Counterexample for claim C9 as stated: one valid, unregistered
environment; the operator answers "n" to its confirmation prompt during
the first `repair` run.  The run changes nothing (same filesystem state
comes back), so the second run — same state, later clock — again
discovers it: the second run's discovered count is 1, not 0, even though
the filesystem did not change between the runs. -/
theorem C9_counterexample :
    repair_registry envOne (fun _ => false) false fsEmptyReg orcGood clkA
      = .ok (1, fsEmptyReg) ∧
    (match repair_registry envOne (fun _ => false) false fsEmptyReg orcGood clkB with
      | .ok q => q.1
      | .error _ => 0) = 1 :=
  ⟨rfl, rfl⟩

theorem pathsOf_spec (l : List Json) (h : AllHavePath l) :
    ∃ ps, pathsOf l = .ok ps ∧ ∀ q, q ∈ ps ↔ ∃ v ∈ l, v.getKey "path" = some q := by
  induction l with
  | nil => exact ⟨[], rfl, by simp⟩
  | cons v rest ih =>
    obtain ⟨pv, hpv⟩ := h v (by simp)
    obtain ⟨ps, hps, hmem⟩ := ih (fun w hw => h w (by simp [hw]))
    refine ⟨pv :: ps, ?_, ?_⟩
    · simp [pathsOf, hpv, hps]
    · intro q
      constructor
      · intro hq
        rcases List.mem_cons.1 hq with rfl | hq'
        · exact ⟨v, by simp, hpv⟩
        · obtain ⟨w, hw, hwp⟩ := (hmem q).1 hq'
          exact ⟨w, by simp [hw], hwp⟩
      · rintro ⟨w, hw, hwp⟩
        rcases List.mem_cons.1 hw with rfl | hw'
        · rw [hpv] at hwp
          exact List.mem_cons.2 (.inl (Option.some_inj.1 hwp).symm)
        · exact List.mem_cons.2 (.inr ((hmem q).2 ⟨w, hw', hwp⟩))

theorem repairAdds_all_confirmed (env : VenvFS) (uy : Bool) (orc₀ : Oracle) (clk : Clock)
    (horc : orc₀ = orcGood) :
    ∀ (cands : List String) (fs : FS) (r : Json) (l : List Json),
      RegState fs r l → AllHavePath l → cands.Nodup →
      (∀ c ∈ cands, env.canon c = c ∧ env.isDir c = true) →
      (∀ c ∈ cands, ∀ v ∈ l, ∀ pv, v.getKey "path" = some pv → pv.eqStr c = false) →
      ∃ fs₁ r₁ new, repairAdds env (fun _ => true) uy orc₀ clk cands fs = .ok fs₁ ∧
        RegState fs₁ r₁ (l ++ new) ∧
        (∀ w ∈ new, ∃ d ∈ cands, w.getKey "path" = some (.str d)) ∧
        (∀ w ∈ new, w.isObj = true) ∧
        (∀ c ∈ cands, ∃ w ∈ new, w.getKey "path" = some (.str c)) := by
  subst horc
  intro cands
  induction cands with
  | nil =>
    intro fs r l hreg hall hnd hcd hnr
    exact ⟨fs, r, [], rfl, by simpa using hreg, by simp, by simp, by simp⟩
  | cons c rest ih =>
    intro fs r l hreg hall hnd hcd hnr
    obtain ⟨hcanon, hdir⟩ := hcd c (by simp)
    have hnrec : NoRecordFor c l := by
      intro v hv
      obtain ⟨pv, hpv⟩ := hall v hv
      exact ⟨pv, hpv, hnr c (by simp) v hv pv hpv⟩
    have hstep := add_venv_insert env c (env.parentBase c)
      (some (get_python_version env c))
      (some ("Virtual environment for " ++ env.parentBase c ++ " (auto-discovered)"))
      false false uy fs r l clk hreg hcanon hdir hnrec (.inl rfl)
    set rec := insertedRec env c (env.parentBase c)
      (some (get_python_version env c))
      (some ("Virtual environment for " ++ env.parentBase c ++ " (auto-discovered)"))
      clk with hrec
    have hrecpath : rec.getKey "path" = some (.str c) :=
      (insertedRec_fields env c (env.parentBase c) _ _ clk).1
    have hrecobj : rec.isObj = true := insertedRec_isObj env c (env.parentBase c) _ _ clk
    have hrun : repairAdds env (fun _ => true) uy orcGood clk (c :: rest) fs
        = repairAdds env (fun _ => true) uy orcGood clk rest
            (add_venv env c (env.parentBase c) (some (get_python_version env c))
              (some ("Virtual environment for " ++ env.parentBase c ++ " (auto-discovered)"))
              false false uy fs orcGood clk).fs := by
      simp only [repairAdds, if_true]
      rw [hstep.1]
    have hallrec : AllHavePath (l ++ [rec]) := by
      intro w hw
      rcases List.mem_append.1 hw with hw' | hw'
      · exact hall w hw'
      · obtain rfl : w = rec := by simpa using hw'
        exact ⟨.str c, hrecpath⟩
    have hnd' : rest.Nodup := (List.nodup_cons.1 hnd).2
    have hcnotin : c ∉ rest := (List.nodup_cons.1 hnd).1
    have hnr' : ∀ d ∈ rest, ∀ v ∈ l ++ [rec], ∀ pv,
        v.getKey "path" = some pv → pv.eqStr d = false := by
      intro d hd v hv pv hpv
      rcases List.mem_append.1 hv with hv' | hv'
      · exact hnr d (by simp [hd]) v hv' pv hpv
      · obtain rfl : v = rec := by simpa using hv'
        rw [hrecpath] at hpv
        obtain rfl : Json.str c = pv := Option.some_inj.1 hpv
        have hne : c ≠ d := fun hcd' => hcnotin (hcd' ▸ hd)
        simp [Json.eqStr, hne]
    obtain ⟨fs₁, r₁, new, hrun', hreg₁, hnewsrc, hnewobj, hnewall⟩ :=
      ih (add_venv env c (env.parentBase c) (some (get_python_version env c))
            (some ("Virtual environment for " ++ env.parentBase c ++ " (auto-discovered)"))
            false false uy fs orcGood clk).fs _ (l ++ [rec]) hstep.2 hallrec hnd'
        (fun d hd => hcd d (by simp [hd])) hnr'
    refine ⟨fs₁, r₁, rec :: new, ?_, ?_, ?_, ?_, ?_⟩
    · rw [hrun, hrun']
    · have : l ++ rec :: new = (l ++ [rec]) ++ new := by simp
      rw [this]
      exact hreg₁
    · intro w hw
      rcases List.mem_cons.1 hw with rfl | hw'
      · exact ⟨c, by simp, hrecpath⟩
      · obtain ⟨d, hd, hdp⟩ := hnewsrc w hw'
        exact ⟨d, by simp [hd], hdp⟩
    · intro w hw
      rcases List.mem_cons.1 hw with rfl | hw'
      · exact hrecobj
      · exact hnewobj w hw'
    · intro d hd
      rcases List.mem_cons.1 hd with rfl | hd'
      · exact ⟨rec, by simp, hrecpath⟩
      · obtain ⟨w, hw, hwp⟩ := hnewall d hd'
        exact ⟨w, by simp [hw], hwp⟩

/-- Claim C9 amended: `repair()` is idempotent with respect to the
filesystem provided the operator confirmed every discovered candidate
during the first run (and no I/O failed): the second run over the
unchanged filesystem discovers zero new environments.  (If any
confirmation was declined, the declined candidate is rediscovered — see
the counterexample.) -/
theorem C9_repair_idempotent_when_confirmed (env : VenvFS) (fs : FS) (r : Json)
    (l₀ : List Json) (clk clk' : Clock) (uy : Bool)
    (hreg : RegState fs r l₀) (hall : AllHavePath l₀)
    (hnodup : env.walkVenvs.Nodup)
    (hcands : ∀ c ∈ env.walkVenvs, env.canon c = c ∧ env.isDir c = true) :
    ∃ n fs₁, repair_registry env (fun _ => true) uy fs orcGood clk = .ok (n, fs₁) ∧
      repair_registry env (fun _ => true) uy fs₁ orcGood clk' = .ok (0, fs₁) := by
  obtain ⟨ps, hps, hpsmem⟩ := pathsOf_spec l₀ hall
  have hfoundnd : (env.walkVenvs.filter
      (fun c => !(ps.any (fun pv => pv.eqStr c)) && verify_venv env c)).Nodup :=
    hnodup.filter _
  have hfoundcd : ∀ c ∈ env.walkVenvs.filter
      (fun c => !(ps.any (fun pv => pv.eqStr c)) && verify_venv env c),
      env.canon c = c ∧ env.isDir c = true :=
    fun c hc => hcands c (List.mem_of_mem_filter hc)
  have hfoundnr : ∀ c ∈ env.walkVenvs.filter
      (fun c => !(ps.any (fun pv => pv.eqStr c)) && verify_venv env c),
      ∀ v ∈ l₀, ∀ pv, v.getKey "path" = some pv → pv.eqStr c = false := by
    intro c hc v hv pv hpv
    have hcond := (List.mem_filter.1 hc).2
    rw [Bool.and_eq_true] at hcond
    have hany : (ps.any (fun pv => pv.eqStr c)) = false := by
      have h1 := hcond.1
      rw [Bool.not_eq_true'] at h1
      exact h1
    have hmem : pv ∈ ps := (hpsmem pv).2 ⟨v, hv, hpv⟩
    by_contra hne
    have hx : ps.any (fun pv => pv.eqStr c) = true := by
      rw [List.any_eq_true]
      exact ⟨pv, hmem, by simpa using hne⟩
    rw [hx] at hany
    cases hany
  obtain ⟨fs₁, r₁, new, hrun', hreg₁, hnewsrc, hnewobj, hnewall⟩ :=
    repairAdds_all_confirmed env uy orcGood clk rfl
      (env.walkVenvs.filter
        (fun c => !(ps.any (fun pv => pv.eqStr c)) && verify_venv env c))
      fs r l₀ hreg hall hfoundnd hfoundcd hfoundnr
  have hall₁ : AllHavePath (l₀ ++ new) := by
    intro w hw
    rcases List.mem_append.1 hw with hw' | hw'
    · exact hall w hw'
    · obtain ⟨d, _, hdp⟩ := hnewsrc w hw'
      exact ⟨.str d, hdp⟩
  obtain ⟨ps₂, hps₂, hps₂mem⟩ := pathsOf_spec (l₀ ++ new) hall₁
  have hfound2 : env.walkVenvs.filter
      (fun c => !(ps₂.any (fun pv => pv.eqStr c)) && verify_venv env c) = [] := by
    rw [List.filter_eq_nil_iff]
    intro c hc
    intro hcond
    rw [Bool.and_eq_true] at hcond
    obtain ⟨h1, h2⟩ := hcond
    have hany2 : ps₂.any (fun pv => pv.eqStr c) = true := by
      by_cases hreg0 : ps.any (fun pv => pv.eqStr c) = true
      · rw [List.any_eq_true] at hreg0
        obtain ⟨pv, hpv, hpvc⟩ := hreg0
        obtain ⟨v, hv, hvp⟩ := (hpsmem pv).1 hpv
        rw [List.any_eq_true]
        exact ⟨pv, (hps₂mem pv).2 ⟨v, List.mem_append.2 (.inl hv), hvp⟩, hpvc⟩
      · have hrf : ps.any (fun pv => pv.eqStr c) = false := by
          rw [Bool.eq_false_iff]
          exact hreg0
        have hcf : c ∈ env.walkVenvs.filter
            (fun c => !(ps.any (fun pv => pv.eqStr c)) && verify_venv env c) := by
          rw [List.mem_filter]
          refine ⟨hc, ?_⟩
          rw [Bool.and_eq_true]
          constructor
          · rw [Bool.not_eq_true']
            exact hrf
          · exact h2
        obtain ⟨w, hw, hwp⟩ := hnewall c hcf
        rw [List.any_eq_true]
        exact ⟨.str c, (hps₂mem (.str c)).2 ⟨w, List.mem_append.2 (.inr hw), hwp⟩,
          eqStr_self c⟩
    rw [Bool.not_eq_true'] at h1
    rw [hany2] at h1
    cases h1
  refine ⟨(env.walkVenvs.filter
      (fun c => !(ps.any (fun pv => pv.eqStr c)) && verify_venv env c)).length, fs₁,
    ?_, ?_⟩
  · unfold repair_registry
    rw [load_parse fs r orcGood clk hreg.1 hreg.2.1]
    dsimp only
    rw [getVenvList_of_getKey r l₀ hreg.2.2.2]
    dsimp only
    rw [hps]
    dsimp only
    rw [hrun']
  · unfold repair_registry
    rw [load_parse fs₁ r₁ orcGood clk' hreg₁.1 hreg₁.2.1]
    dsimp only
    rw [getVenvList_of_getKey r₁ (l₀ ++ new) hreg₁.2.2.2]
    dsimp only
    rw [hps₂]
    dsimp only
    rw [hfound2]
    rfl

/-- Witness for the amended C9: one valid unregistered environment,
every confirmation answered yes. -/
theorem C9_repair_idempotent_when_confirmed_witness :
    ∃ n fs₁, repair_registry envOne (fun _ => true) false fsEmptyReg orcGood clkA
        = .ok (n, fs₁) ∧
      repair_registry envOne (fun _ => true) false fs₁ orcGood clkB = .ok (0, fs₁) :=
  C9_repair_idempotent_when_confirmed envOne fsEmptyReg
    (.obj [("virtual_environments", .arr []), ("last_updated", .str "TIME_0")]) []
    clkA clkB false ⟨rfl, rfl, rfl, rfl⟩ (fun v hv => nomatch hv) (by decide)
    (by
      intro c hc
      simp only [envOne, List.mem_singleton] at hc
      subst hc
      exact ⟨rfl, rfl⟩)

/-! ### Ordering lemmas for backup-name sorting -/

theorem lexLe_total : ∀ a b, lexLe a b = true ∨ lexLe b a = true := by
  intro a
  induction a with
  | nil => intro b; exact .inl rfl
  | cons x xs ih =>
    intro b
    cases b with
    | nil => exact .inr rfl
    | cons y ys =>
      simp only [lexLe]
      by_cases hxy : x.toNat < y.toNat
      · left; simp [hxy]
      · by_cases hyx : y.toNat < x.toNat
        · right; simp [hyx]
        · rcases ih ys with h | h
          · left; simp [hxy, hyx, h]
          · right; simp [hxy, hyx, h]

theorem lexLe_trans : ∀ a b c, lexLe a b = true → lexLe b c = true → lexLe a c = true := by
  intro a
  induction a with
  | nil => intro b c h1 h2; rfl
  | cons x xs ih =>
    intro b c h1 h2
    cases b with
    | nil => simp [lexLe] at h1
    | cons y ys =>
      cases c with
      | nil => simp [lexLe] at h2
      | cons z zs =>
        simp only [lexLe] at h1 h2 ⊢
        by_cases hxy : x.toNat < y.toNat
        · by_cases hyz : y.toNat < z.toNat
          · simp [show x.toNat < z.toNat by omega]
          · by_cases hzy : z.toNat < y.toNat
            · simp [hyz, hzy] at h2
            · simp [show x.toNat < z.toNat by omega]
        · by_cases hyx : y.toNat < x.toNat
          · simp [hxy, hyx] at h1
          · by_cases hyz : y.toNat < z.toNat
            · simp [show x.toNat < z.toNat by omega]
            · by_cases hzy : z.toNat < y.toNat
              · simp [hyz, hzy] at h2
              · have hxz : ¬ x.toNat < z.toNat := by omega
                have hzx : ¬ z.toNat < x.toNat := by omega
                simp only [hxy, hyx, if_false] at h1
                simp only [hyz, hzy, if_false] at h2
                simp only [hxz, hzx, if_false]
                exact ih ys zs (by simpa using h1) (by simpa using h2)

theorem strLe_total (a b : String) : strLe a b = true ∨ strLe b a = true :=
  lexLe_total a.data b.data

theorem strLe_trans (a b c : String) (h1 : strLe a b = true) (h2 : strLe b c = true) :
    strLe a c = true :=
  lexLe_trans a.data b.data c.data h1 h2

theorem insertSorted_perm (x : String) (l : List String) :
    List.Perm (insertSorted x l) (x :: l) := by
  induction l with
  | nil => exact List.Perm.refl _
  | cons y ys ih =>
    unfold insertSorted
    by_cases h : strLe x y = true
    · rw [if_pos h]
    · rw [if_neg h]
      exact List.Perm.trans (ih.cons y) (List.Perm.swap x y ys)

theorem sortNames_perm (l : List String) : List.Perm (sortNames l) l := by
  induction l with
  | nil => exact List.Perm.refl _
  | cons x xs ih =>
    unfold sortNames
    exact List.Perm.trans (insertSorted_perm x (sortNames xs)) (ih.cons x)

theorem sorted_insertSorted (x : String) (l : List String)
    (h : l.Pairwise NameLe) : (insertSorted x l).Pairwise NameLe := by
  induction l with
  | nil => simp [insertSorted]
  | cons y ys ih =>
    rcases List.pairwise_cons.1 h with ⟨hy, hys⟩
    unfold insertSorted
    by_cases hxy : strLe x y = true
    · rw [if_pos hxy]
      refine List.pairwise_cons.2 ⟨?_, h⟩
      intro b hb
      rcases List.mem_cons.1 hb with rfl | hb'
      · exact hxy
      · exact strLe_trans x y b hxy (hy b hb')
    · rw [if_neg hxy]
      refine List.pairwise_cons.2 ⟨?_, ih hys⟩
      intro b hb
      have hmem := (insertSorted_perm x ys).mem_iff.1 hb
      rcases List.mem_cons.1 hmem with rfl | hb'
      · rcases strLe_total y b with h' | h'
        · exact h'
        · exact absurd h' hxy
      · exact hy b hb'

theorem sorted_sortNames (l : List String) : (sortNames l).Pairwise NameLe := by
  induction l with
  | nil => simp [sortNames]
  | cons x xs ih => exact sorted_insertSorted x (sortNames xs) ih

theorem sorted_take_drop (l : List String) (k : Nat) (h : l.Pairwise NameLe)
    (a b : String) (ha : a ∈ l.take k) (hb : b ∈ l.drop k) : strLe a b = true := by
  have hl : l.take k ++ l.drop k = l := List.take_append_drop k l
  rw [← hl] at h
  exact (List.pairwise_append.1 h).2.2 a ha b hb

/-! ### Backup-rotation lemmas -/

theorem dirNames_filter (dir : List (String × FileData)) (q : String → Bool) :
    dirNames (dir.filter (fun p => q p.1)) = (dirNames dir).filter q := by
  unfold dirNames
  induction dir with
  | nil => rfl
  | cons p rest ih =>
    by_cases h : q p.1 = true <;> simp [h, ih]

theorem nodup_dirNames_filter (dir : List (String × FileData))
    (f : String × FileData → Bool) (h : (dirNames dir).Nodup) :
    (dirNames (dir.filter f)).Nodup := by
  have hsub : List.Sublist (dir.filter f) dir := List.filter_sublist dir
  exact ((hsub.map Prod.fst).nodup) h

theorem filter_comm_and (l : List String) (p q : String → Bool) :
    (l.filter p).filter q = (l.filter q).filter p := by
  induction l with
  | nil => rfl
  | cons x xs ih =>
    by_cases hp : p x = true <;> by_cases hq : q x = true <;> simp [hp, hq, ih]

theorem dirNames_upsert (dir : List (String × FileData)) (n : String) (c : FileData) :
    dirNames (upsertFile dir n c)
      = if n ∈ dirNames dir then dirNames dir else dirNames dir ++ [n] := by
  unfold dirNames
  induction dir with
  | nil => simp [upsertFile]
  | cons p rest ih =>
    obtain ⟨m, d⟩ := p
    by_cases h : (m == n) = true
    · have hm : m = n := by simpa using h
      subst hm
      simp [upsertFile]
    · have hm : ¬ m = n := by simpa using h
      have hm' : ¬ n = m := fun hh => hm hh.symm
      by_cases hmem : n ∈ rest.map Prod.fst
      · simp [upsertFile, h, hmem, hm', ih]
      · simp [upsertFile, h, hmem, hm', ih]

theorem nodup_upsert (dir : List (String × FileData)) (n : String) (c : FileData)
    (h : (dirNames dir).Nodup) : (dirNames (upsertFile dir n c)).Nodup := by
  rw [dirNames_upsert]
  by_cases hmem : n ∈ dirNames dir
  · rw [if_pos hmem]; exact h
  · rw [if_neg hmem]
    simp [List.nodup_append, h, hmem]

theorem mem_dirNames_upsert_self (dir : List (String × FileData)) (n : String)
    (c : FileData) : n ∈ dirNames (upsertFile dir n c) := by
  rw [dirNames_upsert]
  by_cases hmem : n ∈ dirNames dir
  · rw [if_pos hmem]; exact hmem
  · rw [if_neg hmem]; simp

theorem mem_dirNames_upsert_of_mem (dir : List (String × FileData)) (n m : String)
    (c : FileData) (h : m ∈ dirNames dir) : m ∈ dirNames (upsertFile dir n c) := by
  rw [dirNames_upsert]
  by_cases hmem : n ∈ dirNames dir
  · rw [if_pos hmem]; exact h
  · rw [if_neg hmem]; simp [h]

theorem backup_nodup (fs : FS) (b : Bool) (clk : Clock)
    (hnd : (dirNames fs.backupDir).Nodup) :
    (dirNames (backup_registry fs b clk).2.backupDir).Nodup := by
  obtain ⟨rf, rd, bd⟩ := fs
  cases rf with
  | none => simpa [backup_registry] using hnd
  | some c =>
    cases b with
    | false => simpa [backup_registry] using hnd
    | true =>
      unfold backup_registry
      dsimp only
      set dir := upsertFile bd ("venv_registry_" ++ clk.stamp ++ ".json") c with hdir
      have hnd' : (dirNames dir).Nodup := nodup_upsert bd _ c hnd
      by_cases hlen : (sortNames ((dirNames dir).filter isBackupName)).length > 10
      · simp only [if_pos hlen]
        exact nodup_dirNames_filter dir _ hnd'
      · simp only [if_neg hlen]
        exact hnd'

theorem mem_of_contains {l : List String} {a : String} (h : l.contains a = true) : a ∈ l := by
  simpa using h

theorem contains_of_mem {l : List String} {a : String} (h : a ∈ l) : l.contains a = true := by
  simpa using h

theorem contains_eq_false_of_not_mem {l : List String} {a : String} (h : a ∉ l) :
    l.contains a = false := by
  cases hc : l.contains a with
  | false => rfl
  | true => exact absurd (mem_of_contains hc) h

theorem backup_count_le (fs : FS) (clk : Clock) (c : FileData)
    (hsome : fs.registryFile = some c) (hnd : (dirNames fs.backupDir).Nodup) :
    (matchingNames (backup_registry fs true clk).2).length ≤ 10 := by
  obtain ⟨rf, rd, bd⟩ := fs
  obtain rfl : rf = some c := hsome
  have hndbd : (dirNames bd).Nodup := hnd
  set name := "venv_registry_" ++ clk.stamp ++ ".json" with hname
  set dir := upsertFile bd name c with hdirdef
  set M := (dirNames dir).filter isBackupName with hM
  set S := sortNames M with hS
  set k := S.length - 10 with hk
  set toDelete := S.take k with htd
  have hndDir : (dirNames dir).Nodup := nodup_upsert bd name c hndbd
  have hndM : M.Nodup := hndDir.filter _
  have hperm : List.Perm S M := sortNames_perm M
  have hndS : S.Nodup := hperm.nodup_iff.2 hndM
  have hsorted : S.Pairwise NameLe := sorted_sortNames M
  have hmt : matchingNames (backup_registry ⟨some c, rd, bd⟩ true clk).2
      = (dirNames (if S.length > 10
          then dir.filter (fun p => !(toDelete.contains p.1))
          else dir)).filter isBackupName := rfl
  rw [hmt]
  by_cases hlen : S.length > 10
  · rw [if_pos hlen]
    have heq1 : dirNames (dir.filter (fun p => !(toDelete.contains p.1)))
        = (dirNames dir).filter (fun n => !(toDelete.contains n)) :=
      dirNames_filter dir (fun n => !(toDelete.contains n))
    rw [heq1, filter_comm_and]
    have hlenEq : (M.filter (fun n => !(toDelete.contains n))).length
        = (S.filter (fun n => !(toDelete.contains n))).length :=
      (hperm.filter (fun n => !(toDelete.contains n))).length_eq.symm
    rw [hlenEq]
    have hsplit : S.filter (fun n => !(toDelete.contains n))
        = (S.take k).filter (fun n => !(toDelete.contains n))
          ++ (S.drop k).filter (fun n => !(toDelete.contains n)) := by
      rw [← List.filter_append, List.take_append_drop]
    rw [hsplit]
    have htake : (S.take k).filter (fun n => !(toDelete.contains n)) = [] := by
      rw [List.filter_eq_nil_iff]
      intro a ha
      have hin : a ∈ toDelete := by rw [htd]; exact ha
      simpa using hin
    have hdrop : (S.drop k).filter (fun n => !(toDelete.contains n)) = S.drop k := by
      rw [List.filter_eq_self]
      intro a ha
      have hnotin : a ∉ S.take k := by
        intro ha2
        have hS2 : (S.take k ++ S.drop k).Nodup := by
          rw [List.take_append_drop]; exact hndS
        exact (List.disjoint_of_nodup_append hS2) ha2 ha
      have hnotdel : a ∉ toDelete := by rw [htd]; exact hnotin
      simpa using hnotdel
    rw [htake, hdrop]
    simp only [List.nil_append, List.length_drop]
    omega
  · rw [if_neg hlen]
    have hml : M.length = S.length := hperm.length_eq.symm
    have : ((dirNames dir).filter isBackupName).length = M.length := rfl
    rw [this, hml]
    omega

theorem backup_retains_greatest (fs : FS) (clk : Clock) (c : FileData)
    (hsome : fs.registryFile = some c) (hnd : (dirNames fs.backupDir).Nodup)
    (d : String) (hd : d ∈ matchingNames fs)
    (hdel : d ∉ matchingNames (backup_registry fs true clk).2)
    (e : String) (he : e ∈ matchingNames (backup_registry fs true clk).2) :
    strLe d e = true := by
  obtain ⟨rf, rd, bd⟩ := fs
  obtain rfl : rf = some c := hsome
  have hndbd : (dirNames bd).Nodup := hnd
  set name := "venv_registry_" ++ clk.stamp ++ ".json" with hname
  set dir := upsertFile bd name c with hdirdef
  set M := (dirNames dir).filter isBackupName with hM
  set S := sortNames M with hS
  set k := S.length - 10 with hk
  set toDelete := S.take k with htd
  have hndDir : (dirNames dir).Nodup := nodup_upsert bd name c hndbd
  have hndM : M.Nodup := hndDir.filter _
  have hperm : List.Perm S M := sortNames_perm M
  have hndS : S.Nodup := hperm.nodup_iff.2 hndM
  have hsorted : S.Pairwise NameLe := sorted_sortNames M
  have hmt : matchingNames (backup_registry ⟨some c, rd, bd⟩ true clk).2
      = (dirNames (if S.length > 10
          then dir.filter (fun p => !(toDelete.contains p.1))
          else dir)).filter isBackupName := rfl
  rw [hmt] at hdel he
  have hdM : d ∈ M := by
    rw [hM, List.mem_filter]
    have hd' := List.mem_filter.1 hd
    exact ⟨mem_dirNames_upsert_of_mem bd name d c hd'.1, hd'.2⟩
  by_cases hlen : S.length > 10
  · rw [if_pos hlen] at hdel he
    have heq1 : dirNames (dir.filter (fun p => !(toDelete.contains p.1)))
        = (dirNames dir).filter (fun n => !(toDelete.contains n)) :=
      dirNames_filter dir (fun n => !(toDelete.contains n))
    rw [heq1, filter_comm_and] at hdel he
    have hdDel : d ∈ toDelete := by
      by_contra hdd
      apply hdel
      rw [List.mem_filter]
      exact ⟨hdM, by simpa using hdd⟩
    have heDrop : e ∈ S.drop k := by
      have he' := List.mem_filter.1 he
      have heS : e ∈ S := hperm.mem_iff.2 he'.1
      have heNot : e ∉ toDelete := by
        intro hee
        have hc2 := he'.2
        rw [contains_of_mem hee] at hc2
        simp at hc2
      have hsplit : e ∈ S.take k ++ S.drop k := by
        rw [List.take_append_drop]; exact heS
      rcases List.mem_append.1 hsplit with h' | h'
      · exact absurd (htd ▸ h') heNot
      · exact h'
    exact sorted_take_drop S k hsorted d e (htd ▸ hdDel) heDrop
  · rw [if_neg hlen] at hdel he
    exact absurd hdM hdel

theorem save_backupDir (registry : Json) (fs : FS) (orc : Oracle) (clk : Clock) :
    (save_registry registry fs orc clk).fs.backupDir
      = (if fs.registryFile.isSome = true then (backup_registry fs orc.backupCopyOk clk).2
         else fs).backupDir := by
  unfold save_registry
  cases registry <;> by_cases hs : fs.registryFile.isSome = true <;>
    by_cases hw : (orc.tempWriteOk && orc.renameOk) = true <;> simp [hs, hw]

theorem saveIter_good : ∀ (steps : List (Oracle × Clock)) (reg : Json) (fs : FS),
    (∀ s ∈ steps, s.1 = orcGood) → reg.isObj = true → fs.registryFile.isSome = true →
    (dirNames fs.backupDir).Nodup → steps ≠ [] →
    (saveIter steps reg fs).1 = true ∧
    (matchingNames (saveIter steps reg fs).2.1).length ≤ 10 ∧
    (dirNames (saveIter steps reg fs).2.1.backupDir).Nodup := by
  intro steps
  induction steps with
  | nil => intro reg fs _ _ _ _ hne; exact absurd rfl hne
  | cons oc rest ih =>
    intro reg fs hgood hobj hsome hnd hne
    have ho : oc.1 = orcGood := hgood oc (by simp)
    obtain ⟨c, hc⟩ := Option.isSome_iff_exists.1 hsome
    have hres : (save_registry reg fs oc.1 oc.2).result = .ok true := by
      rw [ho]; exact save_obj_result reg fs orcGood oc.2 hobj rfl rfl
    have hfile : (save_registry reg fs oc.1 oc.2).fs.registryFile
        = some (.json (reg.setKey "last_updated" (.str oc.2.iso))) := by
      rw [ho]; exact save_obj_file reg fs orcGood oc.2 hobj rfl rfl
    have hbd : (save_registry reg fs oc.1 oc.2).fs.backupDir
        = (backup_registry fs true oc.2).2.backupDir := by
      rw [ho, save_backupDir, if_pos hsome]
      rfl
    have hnd' : (dirNames (save_registry reg fs oc.1 oc.2).fs.backupDir).Nodup := by
      rw [hbd]; exact backup_nodup fs true oc.2 hnd
    have hcount : (matchingNames (save_registry reg fs oc.1 oc.2).fs).length ≤ 10 := by
      have hmn : matchingNames (save_registry reg fs oc.1 oc.2).fs
          = matchingNames (backup_registry fs true oc.2).2 := by
        unfold matchingNames; rw [hbd]
      rw [hmn]
      exact backup_count_le fs oc.2 c hc hnd
    have hunf : saveIter (oc :: rest) reg fs
        = (true && (saveIter rest (save_registry reg fs oc.1 oc.2).reg
             (save_registry reg fs oc.1 oc.2).fs).1,
           (saveIter rest (save_registry reg fs oc.1 oc.2).reg
             (save_registry reg fs oc.1 oc.2).fs).2.1,
           (saveIter rest (save_registry reg fs oc.1 oc.2).reg
             (save_registry reg fs oc.1 oc.2).fs).2.2) := by
      simp only [saveIter]
      rw [hres]
    cases rest with
    | nil =>
      rw [hunf]
      exact ⟨rfl, hcount, hnd'⟩
    | cons r rs =>
      have hobj' : (save_registry reg fs oc.1 oc.2).reg.isObj = true := by
        rw [ho, save_obj_reg reg fs orcGood oc.2 hobj]
        exact isObj_setKey _ _ _ hobj
      have hsome' : (save_registry reg fs oc.1 oc.2).fs.registryFile.isSome = true := by
        rw [hfile]; rfl
      obtain ⟨h1, h2, h3⟩ := ih (save_registry reg fs oc.1 oc.2).reg
        (save_registry reg fs oc.1 oc.2).fs
        (fun x hx => hgood x (by simp [hx])) hobj' hsome' hnd' (by simp)
      rw [hunf]
      exact ⟨by simp [h1], h2, h3⟩

/-- Counterexample for claim C8 as stated: eleven backups already
present, ten successive saves whose backup copy step fails each time.
Every save succeeds (the backup result is ignored), yet rotation never
runs, so after ten successful saves the backup directory still holds
eleven files matching the naming convention — more than 10. -/
theorem C8_counterexample :
    (saveIter stepsC8 regOneRec fsC8cex).1 = true ∧
    (matchingNames (saveIter stepsC8 regOneRec fsC8cex).2.1).length = 11 :=
  ⟨rfl, rfl⟩

/-- Claim C8 amended: after any nonempty run of successive saves over a
pre-existing registry file in which the backup copy step succeeds, the
backup directory holds at most 10 files matching the naming convention;
and whenever a rotation deletes a matching backup, every matching backup
it retains has a name at least as large in the sort order — the
retained files are the 10 most recent by sorted timestamped filename.
(When the backup copy fails, the save still reports success and no
rotation happens, so the bound can be violated — see the
counterexample.) -/
theorem C8_backup_retention (reg : Json) (fs : FS) (steps : List (Oracle × Clock))
    (hobj : reg.isObj = true) (hsome : fs.registryFile.isSome = true)
    (hnd : (dirNames fs.backupDir).Nodup) (hne : steps ≠ [])
    (hgood : ∀ s ∈ steps, s.1 = orcGood) :
    (saveIter steps reg fs).1 = true ∧
    (matchingNames (saveIter steps reg fs).2.1).length ≤ 10 ∧
    (∀ (fs0 : FS) (clk : Clock) (c : FileData), fs0.registryFile = some c →
      (dirNames fs0.backupDir).Nodup →
      ∀ d ∈ matchingNames fs0, d ∉ matchingNames (backup_registry fs0 true clk).2 →
        ∀ e ∈ matchingNames (backup_registry fs0 true clk).2, strLe d e = true) :=
  ⟨(saveIter_good steps reg fs hgood hobj hsome hnd hne).1,
   (saveIter_good steps reg fs hgood hobj hsome hnd hne).2.1,
   fun fs0 clk c h1 h2 d hd hdel e he =>
     backup_retains_greatest fs0 clk c h1 h2 d hd hdel e he⟩

/-- Witness for the amended C8: one good save over the eleven-backup
directory prunes it to ten. -/
theorem C8_backup_retention_witness :
    (saveIter [(orcGood, clkA)] regOneRec fsC8cex).1 = true ∧
    (matchingNames (saveIter [(orcGood, clkA)] regOneRec fsC8cex).2.1).length ≤ 10 ∧
    (∀ (fs0 : FS) (clk : Clock) (c : FileData), fs0.registryFile = some c →
      (dirNames fs0.backupDir).Nodup →
      ∀ d ∈ matchingNames fs0, d ∉ matchingNames (backup_registry fs0 true clk).2 →
        ∀ e ∈ matchingNames (backup_registry fs0 true clk).2, strLe d e = true) :=
  C8_backup_retention regOneRec fsC8cex [(orcGood, clkA)] rfl rfl (by decide) (by simp)
    (by
      intro s hs
      simp only [List.mem_singleton] at hs
      subst hs
      rfl)
